import Mathlib

/-!
Verification development for the RVO2-TS library (littleGauze/RVO2-TS-Demo).

The TypeScript/JavaScript sources are shallowly embedded: JS numbers are
modelled as elements of a linear ordered field (instantiated at the reals
for the geometric solver, where square roots occur, and at the rationals
where executable witnesses are wanted); mutable objects become explicit
state passing; early returns become nested conditionals or Option values.
Object identity between agents (respectively obstacle vertices) is modelled
by equality of the stable integer ids that the simulator assigns.
-/

namespace RVO

/-- Translation of class Vector2 (src/dist/Vector2.js): a pair of scalars. -/
structure Vector2 (α : Type) where
  x : α
  y : α
deriving DecidableEq, Repr

namespace Vector2

variable {α : Type} [LinearOrderedField α]

/-- Vector2.dot (src/dist/Vector2.js line 80). -/
def dot (v w : Vector2 α) : α :=
  v.x * w.x + v.y * w.y

/-- Vector2.multiply by a scalar (src/dist/Vector2.js line 102). -/
def multiply (v : Vector2 α) (scalar : α) : Vector2 α :=
  ⟨v.x * scalar, v.y * scalar⟩

/-- Vector2.divide by a scalar (src/dist/Vector2.js line 113); division by
zero follows the ambient field convention (x / 0 = 0). -/
def divide (v : Vector2 α) (scalar : α) : Vector2 α :=
  ⟨v.x / scalar, v.y / scalar⟩

/-- Vector2.add (src/dist/Vector2.js line 124). -/
def add (v w : Vector2 α) : Vector2 α :=
  ⟨v.x + w.x, v.y + w.y⟩

/-- Vector2.subtract (src/dist/Vector2.js line 135). -/
def subtract (v w : Vector2 α) : Vector2 α :=
  ⟨v.x - w.x, v.y - w.y⟩

/-- Vector2.negate (src/dist/Vector2.js line 145). -/
def negate (v : Vector2 α) : Vector2 α :=
  ⟨-v.x, -v.y⟩

end Vector2

namespace RVOMath

variable {α : Type} [LinearOrderedField α]

/-- RVOMath.RVO_EPSILON = 0.00001 (src/src/RVOMath.ts). -/
def RVO_EPSILON : α := 1 / 100000

/-- RVOMath.absSq (src/src/RVOMath.ts): squared length. -/
def absSq (v : Vector2 α) : α :=
  v.dot v

/-- RVOMath.sqr (src/src/RVOMath.ts). -/
def sqr (scalar : α) : α :=
  scalar * scalar

/-- RVOMath.det (src/src/RVOMath.ts). -/
def det (v w : Vector2 α) : α :=
  v.x * w.y - v.y * w.x

/-- RVOMath.leftOf (src/src/RVOMath.ts): positive when c lies to the left of
the line from a to b. -/
def leftOf (a b c : Vector2 α) : α :=
  det (a.subtract c) (b.subtract a)

/-- RVOMath.distSqPointLineSegment (src/src/RVOMath.ts): squared distance
from point vector3 to the segment from vector1 to vector2. -/
def distSqPointLineSegment (vector1 vector2 vector3 : Vector2 α) : α :=
  let r := ((vector3.subtract vector1).dot (vector2.subtract vector1)) /
    absSq (vector2.subtract vector1)
  if r < 0 then absSq (vector3.subtract vector1)
  else if r > 1 then absSq (vector3.subtract vector2)
  else absSq (vector3.subtract (vector1.add ((vector2.subtract vector1).multiply r)))

/-- RVOMath.abs (src/src/RVOMath.ts): length, via the real square root. -/
noncomputable def abs (v : Vector2 ℝ) : ℝ :=
  Real.sqrt (absSq v)

/-- RVOMath.normalize (src/src/RVOMath.ts): unguarded division by the
length. -/
noncomputable def normalize (v : Vector2 ℝ) : Vector2 ℝ :=
  v.divide (abs v)

end RVOMath

/-- Translation of class Line (src/unnamed Line.d.ts): a directed line in
velocity space, carrying a direction and a point. -/
structure Line (α : Type) where
  direction : Vector2 α
  point : Vector2 α
deriving DecidableEq, Repr

/-- Line with default zero fields, standing for new Line() before its
fields are assigned. -/
def Line.init {α : Type} [LinearOrderedField α] : Line α :=
  ⟨⟨0, 0⟩, ⟨0, 0⟩⟩

/-!
Floating-point fragment for the two normalize variants.  The guarded
instance method Vector2.normalize versus the unguarded RVOMath.normalize
differ exactly on the zero vector, where the latter divides zero by zero;
capturing that requires the IEEE-754 special values, so this fragment
models a JS number as either NaN, an infinity, or a finite real (signed
zeros are not distinguished, which is irrelevant at the inputs considered).
-/
/-- Model of a JavaScript IEEE-754 double for the normalize comparison:
NaN, the two infinities, or a finite real value. -/
inductive JsFloat : Type where
  | nan : JsFloat
  | posInf : JsFloat
  | negInf : JsFloat
  | num (val : ℝ) : JsFloat

namespace JsFloat

/-- IEEE-style multiplication on the float model. -/
noncomputable def mul : JsFloat → JsFloat → JsFloat
  | nan, _ => nan
  | _, nan => nan
  | num a, num b => num (a * b)
  | posInf, num b => if b = 0 then nan else if 0 < b then posInf else negInf
  | num a, posInf => if a = 0 then nan else if 0 < a then posInf else negInf
  | negInf, num b => if b = 0 then nan else if 0 < b then negInf else posInf
  | num a, negInf => if a = 0 then nan else if 0 < a then negInf else posInf
  | posInf, posInf => posInf
  | posInf, negInf => negInf
  | negInf, posInf => negInf
  | negInf, negInf => posInf

/-- IEEE-style addition on the float model. -/
noncomputable def add : JsFloat → JsFloat → JsFloat
  | nan, _ => nan
  | _, nan => nan
  | num a, num b => num (a + b)
  | posInf, negInf => nan
  | negInf, posInf => nan
  | posInf, _ => posInf
  | _, posInf => posInf
  | negInf, _ => negInf
  | _, negInf => negInf

/-- IEEE-style division on the float model: zero divided by zero is NaN. -/
noncomputable def div : JsFloat → JsFloat → JsFloat
  | nan, _ => nan
  | _, nan => nan
  | num a, num b =>
      if b = 0 then (if a = 0 then nan else if 0 < a then posInf else negInf)
      else num (a / b)
  | num _, posInf => num 0
  | num _, negInf => num 0
  | posInf, num b => if 0 ≤ b then posInf else negInf
  | negInf, num b => if 0 ≤ b then negInf else posInf
  | posInf, _ => nan
  | negInf, _ => nan

/-- IEEE-style square root on the float model (Math.sqrt). -/
noncomputable def sqrt : JsFloat → JsFloat
  | nan => nan
  | posInf => posInf
  | negInf => nan
  | num a => if a < 0 then nan else num (Real.sqrt a)

/-- IEEE-style strict comparison; every comparison with NaN is false. -/
noncomputable def lt : JsFloat → JsFloat → Bool
  | nan, _ => false
  | _, nan => false
  | num a, num b => decide (a < b)
  | num _, posInf => true
  | num _, negInf => false
  | posInf, _ => false
  | negInf, negInf => false
  | negInf, _ => true

end JsFloat

/-- Vector of JS floats, for the two normalize variants. -/
structure Vector2F : Type where
  x : JsFloat
  y : JsFloat

namespace Vector2F

/-- Vector2.dot on the float model (src/dist/Vector2.js line 80). -/
noncomputable def dot (v w : Vector2F) : JsFloat :=
  JsFloat.add (JsFloat.mul v.x w.x) (JsFloat.mul v.y w.y)

/-- Vector2.divide on the float model (src/dist/Vector2.js line 113). -/
noncomputable def divide (v : Vector2F) (scalar : JsFloat) : Vector2F :=
  ⟨JsFloat.div v.x scalar, JsFloat.div v.y scalar⟩

/-- Vector2.length on the float model (src/dist/Vector2.js line 170):
Math.sqrt(x*x + y*y). -/
noncomputable def length (v : Vector2F) : JsFloat :=
  JsFloat.sqrt (JsFloat.add (JsFloat.mul v.x v.x) (JsFloat.mul v.y v.y))

/-- Vector2.normalize, the guarded instance method (src/dist/Vector2.js
lines 182-188): divide by the length only when the length is
greater than zero, otherwise return the zero vector. -/
noncomputable def normalize (v : Vector2F) : Vector2F :=
  let len := v.length
  if JsFloat.lt (JsFloat.num 0) len then v.divide len
  else ⟨JsFloat.num 0, JsFloat.num 0⟩

/-- Vector2.normalize, the static wrapper (src/dist/Vector2.js line 232),
which just calls the instance method. -/
noncomputable def staticNormalize (vector : Vector2F) : Vector2F :=
  vector.normalize

end Vector2F

namespace RVOMathF

/-- RVOMath.absSq on the float model (src/src/RVOMath.ts): vector.dot(vector). -/
noncomputable def absSq (v : Vector2F) : JsFloat :=
  v.dot v

/-- RVOMath.abs on the float model (src/src/RVOMath.ts): sqrt of absSq. -/
noncomputable def abs (v : Vector2F) : JsFloat :=
  JsFloat.sqrt (absSq v)

/-- RVOMath.normalize on the float model (src/src/RVOMath.ts lines 73-75):
unguarded division of the vector by its length. -/
noncomputable def normalize (v : Vector2F) : Vector2F :=
  v.divide (abs v)

end RVOMathF

/-!
Agents and their neighbor lists (src/dist/Agent.js).  Agents reference each
other and obstacle vertices reference their chain neighbors through
pointers; the embedding breaks these cycles by storing, in a neighbor
entry, exactly the fields the algorithms read, and models pointer identity
by equality of the stable integer ids.
-/
/-- Fields of another agent read through an agent-neighbor entry
(position, velocity, radius in computeNewVelocity; position and identity
in insertAgentNeighbor). -/
structure AgentRef (α : Type) where
  position : Vector2 α
  velocity : Vector2 α
  radius : α
  id : ℕ
deriving DecidableEq, Repr

/-- Fields of one obstacle vertex (class Obstacle) read by the agent code:
its position, its outgoing unit edge direction, its convexity flag and its
stable id. -/
structure ObstacleSnapshot (α : Type) where
  point : Vector2 α
  direction : Vector2 α
  convex : Bool
  id : ℕ
deriving DecidableEq, Repr

/-- An obstacle edge as seen from an agent: the vertex obstacle1, its chain
successor obstacle2 = obstacle1.next, and the direction of the predecessor
obstacle1.previous (the only field of the predecessor the solver reads). -/
structure ObstaclePair (α : Type) where
  obstacle1 : ObstacleSnapshot α
  obstacle2 : ObstacleSnapshot α
  previousDirection : Vector2 α
deriving DecidableEq, Repr

/-- Translation of class Agent (src/dist/Agent.js), fields in constructor
order.  Neighbor lists hold (key, value) pairs keyed by squared distance. -/
structure Agent (α : Type) where
  agentNeighbors : List (α × AgentRef α)
  obstacleNeighbors : List (α × ObstaclePair α)
  orcaLines : List (Line α)
  position : Vector2 α
  prefVelocity : Vector2 α
  velocity : Vector2 α
  id : ℕ
  maxNeighbors : ℕ
  maxSpeed : α
  neighborDist : α
  radius : α
  timeHorizon : α
  timeHorizonObst : α
  newVelocity : Vector2 α
deriving DecidableEq, Repr

/-- Agent as produced by new Agent() (src/dist/Agent.js lines 41-56). -/
def Agent.init {α : Type} [LinearOrderedField α] : Agent α :=
  ⟨[], [], [], ⟨0, 0⟩, ⟨0, 0⟩, ⟨0, 0⟩, 0, 0, 0, 0, 0, 0, 0, ⟨0, 0⟩⟩

/-- The snapshot of an agent that is stored when it is inserted into
another agent's neighbor list (in the source, a reference). -/
def Agent.toRef {α : Type} (a : Agent α) : AgentRef α :=
  ⟨a.position, a.velocity, a.radius, a.id⟩

section NeighborInsertion

variable {α : Type} [LinearOrderedField α] {β : Type}

/-- Body of the insertion shift loop of insertAgentNeighbor and
insertObstacleNeighbor (src/dist/Agent.js lines 477-482 and 501-506),
on the reversed list: walk from the end of the list while the new key is
smaller than the key before the cursor, shifting entries up, and drop the
new entry at the stopping position. -/
def shiftInsertRev (key : α) (value : β) : List (α × β) → List (α × β)
  | [] => [(key, value)]
  | x :: rest =>
      if key < x.1 then x :: shiftInsertRev key value rest
      else (key, value) :: x :: rest

/-- The insertion shift loop in list order. -/
def shiftInsert (key : α) (value : β) (l : List (α × β)) : List (α × β) :=
  (shiftInsertRev key value l.reverse).reverse

end NeighborInsertion

namespace Agent

variable {α : Type} [LinearOrderedField α]

/-- Agent.insertAgentNeighbor (src/dist/Agent.js lines 470-488).  The
rangeSq box that the source mutates is returned as the second component.
The pointer identity test this !== agent is modelled by comparing ids.
The push-then-shift of the source equals a shift-insert into the current
list when the list is not yet full, and into the list without its last
entry when it is full (the shifted-out last entry is overwritten).  When
maxNeighbors = 0 and distSq < rangeSq the source dereferences an undefined
array slot and throws; that path is unreachable because computeNeighbors
only queries agent neighbors when maxNeighbors > 0. -/
def insertAgentNeighbor (self : Agent α) (agent : AgentRef α) (rangeSq : α) :
    Agent α × α :=
  if self.id ≠ agent.id then
    let distSq := RVOMath.absSq (self.position.subtract agent.position)
    if distSq < rangeSq then
      let base :=
        if self.agentNeighbors.length < self.maxNeighbors then self.agentNeighbors
        else self.agentNeighbors.dropLast
      let neighbors := shiftInsert distSq agent base
      let rangeSqOut :=
        if neighbors.length = self.maxNeighbors then
          (neighbors.getLastD (distSq, agent)).1
        else rangeSq
      ({ self with agentNeighbors := neighbors }, rangeSqOut)
    else (self, rangeSq)
  else (self, rangeSq)

/-- Agent.insertObstacleNeighbor (src/dist/Agent.js lines 496-508): keyed
by the squared distance from the agent to the edge segment; unbounded; no
write-back of the range. -/
def insertObstacleNeighbor (self : Agent α) (obstacle : ObstaclePair α)
    (rangeSq : α) : Agent α :=
  let nextObstacle := obstacle.obstacle2
  let distSq := RVOMath.distSqPointLineSegment obstacle.obstacle1.point
    nextObstacle.point self.position
  if distSq < rangeSq then
    { self with obstacleNeighbors := shiftInsert distSq obstacle self.obstacleNeighbors }
  else self

end Agent

section AgentNeighborInvariant

variable {α : Type} [LinearOrderedField α]

/-- The sequence of insertAgentNeighbor calls that an agent-neighbor query
performs, starting from the state the caller is in; computeNeighbors clears
the list first, so after doStep each agent-neighbor list is the first
component of such a fold from the empty list. -/
def insertAgentNeighborCalls (self : Agent α) (rangeSq : α)
    (others : List (AgentRef α)) : Agent α × α :=
  others.foldl (fun st other => Agent.insertAgentNeighbor st.1 other st.2) (self, rangeSq)

/-- Shape invariant of an agent-neighbor list with respect to the owning
agent's position, neighbor bound and id. -/
def AgentNeighborInv (pos : Vector2 α) (maxN : ℕ) (selfId : ℕ)
    (l : List (α × AgentRef α)) : Prop :=
  l.length ≤ maxN ∧
  (∀ p ∈ l, p.1 = RVOMath.absSq (pos.subtract p.2.position) ∧ p.2.id ≠ selfId) ∧
  l.Chain' (fun p q => p.1 ≤ q.1)

end AgentNeighborInvariant

/-!
Spatial index and simulator (src/dist/index.js KdTree part, src/Simulator.ts).
The obstacle BSP tree stores at each node the snapshot of its splitter edge;
null subtrees become the empty constructor.  The agent k-D tree array stores
indices into the simulator's agent list, which models the object references
of the source (ids equal indices for agents created through the API).
-/
/-- Node of the agent k-D tree (class AgentTreeNode, src/dist/index.js
lines 95-106); beginIdx and endIdx stand for the source's begin and end. -/
structure AgentTreeNode : Type where
  beginIdx : ℕ
  endIdx : ℕ
  left : ℕ
  right : ℕ
  maxX : ℝ
  maxY : ℝ
  minX : ℝ
  minY : ℝ

/-- Node of AgentTreeNode as produced by its constructor. -/
def AgentTreeNode.init : AgentTreeNode :=
  ⟨0, 0, 0, 0, 0, 0, 0, 0⟩

/-- Obstacle k-D tree (class ObstacleTreeNode, src/dist/index.js lines
131-137); a null reference becomes the empty tree. -/
inductive ObstacleTree (α : Type) : Type where
  | empty : ObstacleTree α
  | node (obstacle : ObstaclePair α) (left right : ObstacleTree α) : ObstacleTree α

/-- Translation of class KdTree (src/dist/index.js lines 141-146): the
permuted agent reference array (as indices into the simulator's agents),
the flat agent tree, and the obstacle tree. -/
structure KdTree : Type where
  agents : List ℕ
  agentTree : List AgentTreeNode
  obstacleTree : ObstacleTree ℝ

/-- KdTree as produced by new KdTree(). -/
def KdTree.init : KdTree :=
  ⟨[], [], ObstacleTree.empty⟩

/-- Translation of class Obstacle (src/dist Obstacle.d.ts): one vertex of
an obstacle polygon chain; next and previous references become vertex ids. -/
structure ObstacleVertex : Type where
  nextId : Option ℕ
  prevId : Option ℕ
  direction : Vector2 ℝ
  point : Vector2 ℝ
  id : ℕ
  convex : Bool

/-- Translation of class Simulator (src/Simulator.ts lines 42-51). -/
structure Simulator : Type where
  agents : List (Agent ℝ)
  obstacles : List ObstacleVertex
  kdTree : KdTree
  timeStep : ℝ
  defaultAgent : Option (Agent ℝ)
  globalTime : ℝ

namespace Simulator

/-- Simulator.clear (src/Simulator.ts lines 166-173): every field is reset,
including the time step (back to 0.1) and the default-agent template. -/
noncomputable def clear (_s : Simulator) : Simulator :=
  { agents := []
    defaultAgent := none
    kdTree := KdTree.init
    obstacles := []
    globalTime := 0
    timeStep := 1 / 10 }

/-- The simulator as built by its private constructor (src/Simulator.ts
lines 602-604), which just calls clear(). -/
noncomputable def fresh : Simulator :=
  clear ⟨[], [], KdTree.init, 0, none, 0⟩

/-- Simulator.setAgentDefaults (src/Simulator.ts lines 440-460). -/
noncomputable def setAgentDefaults (s : Simulator) (neighborDist : ℝ)
    (maxNeighbors : ℕ) (timeHorizon timeHorizonObst radius maxSpeed : ℝ)
    (velocity : Vector2 ℝ) : Simulator :=
  let d := s.defaultAgent.getD Agent.init
  { s with defaultAgent := some { d with
      maxNeighbors := maxNeighbors
      maxSpeed := maxSpeed
      neighborDist := neighborDist
      radius := radius
      timeHorizon := timeHorizon
      timeHorizonObst := timeHorizonObst
      velocity := velocity } }

/-- Simulator.addAgent (src/Simulator.ts lines 63-81): the sentinel -1 when
no defaults have been set, else the new id (= the current list length). -/
noncomputable def addAgent (s : Simulator) (position : Vector2 ℝ) :
    ℤ × Simulator :=
  match s.defaultAgent with
  | none => (-1, s)
  | some d =>
      let agent : Agent ℝ := { Agent.init with
        id := s.agents.length
        maxNeighbors := d.maxNeighbors
        maxSpeed := d.maxSpeed
        neighborDist := d.neighborDist
        position := position
        radius := d.radius
        timeHorizon := d.timeHorizon
        timeHorizonObst := d.timeHorizonObst
        velocity := d.velocity }
      ((agent.id : ℤ), { s with agents := s.agents ++ [agent] })

/-- Simulator.addAgentWithParams (src/Simulator.ts lines 96-119). -/
noncomputable def addAgentWithParams (s : Simulator) (position : Vector2 ℝ)
    (neighborDist : ℝ) (maxNeighbors : ℕ)
    (timeHorizon timeHorizonObst radius maxSpeed : ℝ)
    (velocity : Vector2 ℝ) : ℤ × Simulator :=
  let agent : Agent ℝ := { Agent.init with
    id := s.agents.length
    maxNeighbors := maxNeighbors
    maxSpeed := maxSpeed
    neighborDist := neighborDist
    position := position
    radius := radius
    timeHorizon := timeHorizon
    timeHorizonObst := timeHorizonObst
    velocity := velocity }
  ((agent.id : ℤ), { s with agents := s.agents ++ [agent] })

/-- Body of the vertex loop of Simulator.addObstacle (src/Simulator.ts
lines 134-158) for index i out of n input vertices: create the vertex,
link it behind the previous one when i is not 0, close the cycle when i is
the last index, set direction and convexity from the input list, and give
it the next id. -/
noncomputable def addObstacleStep (vertices : List (Vector2 ℝ)) (obstacleNo : ℕ)
    (obs : List ObstacleVertex) (i : ℕ) : List ObstacleVertex :=
  let n := vertices.length
  let point := vertices.getD i ⟨0, 0⟩
  let newId := obs.length
  let obstacle : ObstacleVertex :=
    { point := point
      prevId := if i ≠ 0 then some (newId - 1) else none
      nextId := if i = n - 1 then some obstacleNo else none
      direction := RVOMath.normalize
        ((vertices.getD (if i = n - 1 then 0 else i + 1) ⟨0, 0⟩).subtract point)
      convex :=
        if n = 2 then true
        else decide (0 ≤ RVOMath.leftOf
          (vertices.getD (if i = 0 then n - 1 else i - 1) ⟨0, 0⟩)
          (vertices.getD i ⟨0, 0⟩)
          (vertices.getD (if i = n - 1 then 0 else i + 1) ⟨0, 0⟩))
      id := newId }
  let obs1 :=
    if i ≠ 0 then
      obs.set (newId - 1)
        { (obs.getD (newId - 1) obstacle) with nextId := some newId }
    else obs
  let obs2 :=
    if i = n - 1 then
      obs1.set obstacleNo
        { (obs1.getD obstacleNo obstacle) with prevId := some newId }
    else obs1
  obs2 ++ [obstacle]

/-- Simulator.addObstacle (src/Simulator.ts lines 127-161): the sentinel -1
when fewer than two vertices are supplied, else the id of the first new
vertex. -/
noncomputable def addObstacle (s : Simulator) (vertices : List (Vector2 ℝ)) :
    ℤ × Simulator :=
  if vertices.length < 2 then (-1, s)
  else
    let obstacleNo := s.obstacles.length
    let obstacles := (List.range vertices.length).foldl
      (addObstacleStep vertices obstacleNo) s.obstacles
    ((obstacleNo : ℤ), { s with obstacles := obstacles })

/-- Simulator.getGlobalTime (src/Simulator.ts lines 347-349). -/
noncomputable def getGlobalTime (s : Simulator) : ℝ :=
  s.globalTime

/-- Simulator.getTimeStep (src/Simulator.ts lines 404-406). -/
noncomputable def getTimeStep (s : Simulator) : ℝ :=
  s.timeStep

/-- Simulator.setTimeStep (src/Simulator.ts lines 566-568). -/
noncomputable def setTimeStep (s : Simulator) (timeStep : ℝ) : Simulator :=
  { s with timeStep := timeStep }

/-- Simulator.getNumAgents (src/Simulator.ts lines 356-358). -/
noncomputable def getNumAgents (s : Simulator) : ℕ :=
  s.agents.length

end Simulator

/-- The id-stability invariant P1: the agent stored at index k of the
simulator's agent list has id = k. -/
def AgentIdInv (s : Simulator) : Prop :=
  ∀ k, k < s.agents.length → (s.agents.getD k Agent.init).id = k

/-- One agent-adding call of the public API. -/
inductive AddCall : Type where
  | agent (position : Vector2 ℝ) : AddCall
  | agentWithParams (position : Vector2 ℝ) (neighborDist : ℝ)
      (maxNeighbors : ℕ) (timeHorizon timeHorizonObst radius maxSpeed : ℝ)
      (velocity : Vector2 ℝ) : AddCall

/-- Effect of one agent-adding call on the simulator. -/
noncomputable def applyAddCall (s : Simulator) : AddCall → Simulator
  | .agent pos => (s.addAgent pos).2
  | .agentWithParams pos nd mn th tho r ms v =>
      (s.addAgentWithParams pos nd mn th tho r ms v).2

/-!
Splitter selection of buildObstacleTreeRecursive (src/dist/index.js lines
221-261).  Within one selection pass no obstacle chain mutation happens, so
an edge is the pair (obstacles[j].point, obstacles[j].next.point).
-/

namespace FloatPair

variable {γ : Type} [LinearOrder γ]

/-- FloatPair.lessThan (src/dist/index.js lines 115-117). -/
def lessThan (pair1 pair2 : γ × γ) : Prop :=
  pair1.1 < pair2.1 ∨ (¬ pair2.1 < pair1.1 ∧ pair1.2 < pair2.2)

/-- FloatPair.lessThanOrEqual (src/dist/index.js lines 118-120). -/
def lessThanOrEqual (pair1 pair2 : γ × γ) : Prop :=
  (pair1.1 = pair2.1 ∧ pair1.2 = pair2.2) ∨ lessThan pair1 pair2

/-- FloatPair.greaterThanOrEqual (src/dist/index.js lines 124-126). -/
def greaterThanOrEqual (pair1 pair2 : γ × γ) : Prop :=
  ¬ lessThan pair1 pair2

instance (pair1 pair2 : γ × γ) : Decidable (lessThan pair1 pair2) := by
  unfold lessThan
  infer_instance

instance (pair1 pair2 : γ × γ) : Decidable (lessThanOrEqual pair1 pair2) := by
  unfold lessThanOrEqual
  infer_instance

instance (pair1 pair2 : γ × γ) : Decidable (greaterThanOrEqual pair1 pair2) := by
  unfold greaterThanOrEqual
  infer_instance

end FloatPair

section ObstacleSplit

variable {α : Type} [LinearOrderedField α]

/-- The pair compared by the splitter selection: (max(L, R), min(L, R)) of
a left/right count pair. -/
def splitPair (counts : ℕ × ℕ) : ℕ × ℕ :=
  (max counts.1 counts.2, min counts.1 counts.2)

/-- Classification of edge j against the line through edge i
(src/dist/index.js lines 240-251): the increments the source applies to
(leftSize, rightSize) — left when both endpoints are at least -ε to the
left, right when both are at most ε, both counts when the edge straddles. -/
def splitClassify (eI eJ : Vector2 α × Vector2 α) : ℕ × ℕ :=
  let j1LeftOfI := RVOMath.leftOf eI.1 eI.2 eJ.1
  let j2LeftOfI := RVOMath.leftOf eI.1 eI.2 eJ.2
  if -RVOMath.RVO_EPSILON ≤ j1LeftOfI ∧ -RVOMath.RVO_EPSILON ≤ j2LeftOfI then (1, 0)
  else if j1LeftOfI ≤ RVOMath.RVO_EPSILON ∧ j2LeftOfI ≤ RVOMath.RVO_EPSILON then (0, 1)
  else (1, 1)

/-- The increment the classification of edge j against candidate i applies
to the running (leftSize, rightSize) counts. -/
def addClassify (edges : List (Vector2 α × Vector2 α)) (i j : ℕ)
    (counts : ℕ × ℕ) : ℕ × ℕ :=
  (counts.1 + (splitClassify (edges.getD i (⟨0, 0⟩, ⟨0, 0⟩))
    (edges.getD j (⟨0, 0⟩, ⟨0, 0⟩))).1,
   counts.2 + (splitClassify (edges.getD i (⟨0, 0⟩, ⟨0, 0⟩))
    (edges.getD j (⟨0, 0⟩, ⟨0, 0⟩))).2)

/-- Inner counting loop of buildObstacleTreeRecursive for candidate i, with
the early exit of src/dist/index.js lines 252-254: skip j = i, add the
classification increments, and stop as soon as the running pair is
greaterThanOrEqual the best pair so far. -/
def countLoopWithBreak (edges : List (Vector2 α × Vector2 α)) (i : ℕ)
    (best : ℕ × ℕ) : List ℕ → ℕ × ℕ → ℕ × ℕ
  | [], counts => counts
  | j :: rest, counts =>
      if i = j then countLoopWithBreak edges i best rest counts
      else
        if FloatPair.greaterThanOrEqual (splitPair (addClassify edges i j counts))
            (splitPair best) then addClassify edges i j counts
        else countLoopWithBreak edges i best rest (addClassify edges i j counts)

/-- The same counting fold without the early exit, following the spec's
definition of L and R: how many edges of S minus the candidate fall
left respectively right of line(i), straddlers counted on both sides. -/
def countPartial (edges : List (Vector2 α × Vector2 α)) (i : ℕ)
    (js : List ℕ) (counts : ℕ × ℕ) : ℕ × ℕ :=
  js.foldl (fun c j => if i = j then c else addClassify edges i j c) counts

/-- Full left/right counts of candidate i over the whole edge list. -/
def countsSpec (edges : List (Vector2 α × Vector2 α)) (i : ℕ) : ℕ × ℕ :=
  countPartial edges i (List.range edges.length) (0, 0)

/-- Body of the outer candidate loop (src/dist/index.js lines 229-261):
run the inner counting loop with early exit against the best pair so far
(minLeft, minRight), and adopt candidate i when its pair is strictly
smaller in the lexicographic FloatPair order.  The state is
(minLeft, minRight, optimalSplit). -/
def selectSplitStep (edges : List (Vector2 α × Vector2 α))
    (st : ℕ × ℕ × ℕ) (i : ℕ) : ℕ × ℕ × ℕ :=
  let counts := countLoopWithBreak edges i (st.1, st.2.1)
    (List.range edges.length) (0, 0)
  if FloatPair.lessThan (splitPair counts) (splitPair (st.1, st.2.1)) then
    (counts.1, counts.2, i)
  else st

/-- The splitter selection of buildObstacleTreeRecursive: starting from
minLeft = minRight = obstacles.length and optimalSplit = 0, fold the
candidate loop over all edges; the selected splitter index is the third
component, and node.obstacle is obstacles[optimalSplit]
(src/dist/index.js line 312 with line 272). -/
def selectObstacleSplit (edges : List (Vector2 α × Vector2 α)) : ℕ × ℕ × ℕ :=
  (List.range edges.length).foldl (selectSplitStep edges)
    (edges.length, edges.length, 0)

/-- Candidate-loop body without the early exit, per the spec's words. -/
def selectSplitStepSpec (edges : List (Vector2 α × Vector2 α))
    (st : ℕ × ℕ × ℕ) (i : ℕ) : ℕ × ℕ × ℕ :=
  let counts := countsSpec edges i
  if FloatPair.lessThan (splitPair counts) (splitPair (st.1, st.2.1)) then
    (counts.1, counts.2, i)
  else st

/-- The splitter selection without the early exit, per the spec's words. -/
def selectObstacleSplitSpec (edges : List (Vector2 α × Vector2 α)) : ℕ × ℕ × ℕ :=
  (List.range edges.length).foldl (selectSplitStepSpec edges)
    (edges.length, edges.length, 0)

end ObstacleSplit

section ObstacleQuery

variable {α : Type} [LinearOrderedField α]

/-- KdTree.queryObstacleTreeRecursive (src/dist/index.js lines 344-358):
descend into the subtree on the agent's side of the splitter line, then, if
the agent's half-strip along the splitter is within rangeSq, insert the
splitter edge when the agent is on its right side and descend into the
opposite subtree.  The squared range is passed by value and never written
back. -/
def queryObstacleTreeRecursive (a : Agent α) (rangeSq : α) :
    ObstacleTree α → Agent α
  | .empty => a
  | .node obstacle left right =>
      let agentLeftOfLine := RVOMath.leftOf obstacle.obstacle1.point
        obstacle.obstacle2.point a.position
      let a1 := if 0 ≤ agentLeftOfLine then
          queryObstacleTreeRecursive a rangeSq left
        else queryObstacleTreeRecursive a rangeSq right
      let distSqLine := RVOMath.sqr agentLeftOfLine /
        RVOMath.absSq (obstacle.obstacle2.point.subtract obstacle.obstacle1.point)
      if distSqLine < rangeSq then
        let a2 := if agentLeftOfLine < 0 then
            a1.insertObstacleNeighbor obstacle rangeSq
          else a1
        if 0 ≤ agentLeftOfLine then queryObstacleTreeRecursive a2 rangeSq right
        else queryObstacleTreeRecursive a2 rangeSq left
      else a1

/-- The edges on which the obstacle query invokes insertObstacleNeighbor,
in invocation order: same traversal as queryObstacleTreeRecursive, with the
range held constant throughout. -/
def visitedObstacles (pos : Vector2 α) (rangeSq : α) :
    ObstacleTree α → List (ObstaclePair α)
  | .empty => []
  | .node obstacle left right =>
      let agentLeftOfLine := RVOMath.leftOf obstacle.obstacle1.point
        obstacle.obstacle2.point pos
      let first := if 0 ≤ agentLeftOfLine then
          visitedObstacles pos rangeSq left
        else visitedObstacles pos rangeSq right
      let distSqLine := RVOMath.sqr agentLeftOfLine /
        RVOMath.absSq (obstacle.obstacle2.point.subtract obstacle.obstacle1.point)
      if distSqLine < rangeSq then
        first ++ (if agentLeftOfLine < 0 then [obstacle] else []) ++
          (if 0 ≤ agentLeftOfLine then visitedObstacles pos rangeSq right
           else visitedObstacles pos rangeSq left)
      else first

/-- The (key, edge) entries the obstacle query adds: the visited edges
whose squared point-to-segment distance is below the initial range, keyed
by that distance. -/
def insertedObstacleEntries (pos : Vector2 α) (rangeSq : α)
    (t : ObstacleTree α) : List (α × ObstaclePair α) :=
  ((visitedObstacles pos rangeSq t).filter (fun o =>
    decide (RVOMath.distSqPointLineSegment o.obstacle1.point o.obstacle2.point pos
      < rangeSq))).map (fun o =>
    (RVOMath.distSqPointLineSegment o.obstacle1.point o.obstacle2.point pos, o))

end ObstacleQuery

/-- RVOMath.sqrt (src/src/RVOMath.ts): Math.sqrt. -/
noncomputable def RVOMath.sqrt (scalar : ℝ) : ℝ :=
  Real.sqrt scalar

namespace Agent

/-- Agent.linearProgram1 (src/dist/Agent.js lines 298-356): the 1-D program
on line lineNo under the earlier constraints and the disc of the given
radius.  The source's boolean return plus by-reference result becomes an
Option; the clipping loop over the earlier lines threads (tLeft, tRight)
and fails early exactly where the source returns false. -/
noncomputable def linearProgram1ClipStep (lines : List (Line ℝ))
    (lineNoDir lineNoPoint : Vector2 ℝ) (st : Option (ℝ × ℝ)) (i : ℕ) :
    Option (ℝ × ℝ) :=
  st.bind (fun tLR =>
    let denominator := RVOMath.det lineNoDir (lines.getD i Line.init).direction
    let numerator := RVOMath.det (lines.getD i Line.init).direction
      (lineNoPoint.subtract (lines.getD i Line.init).point)
    if |denominator| ≤ RVOMath.RVO_EPSILON then
      if numerator < 0 then none else some tLR
    else
      let t := numerator / denominator
      let tLR1 := if 0 ≤ denominator then (tLR.1, min tLR.2 t)
        else (max tLR.1 t, tLR.2)
      if tLR1.2 < tLR1.1 then none else some tLR1)

noncomputable def linearProgram1 (lines : List (Line ℝ)) (lineNo : ℕ)
    (radius : ℝ) (optVelocity : Vector2 ℝ) (directionOpt : Bool) :
    Option (Vector2 ℝ) :=
  let lineNoDir := (lines.getD lineNo Line.init).direction
  let lineNoPoint := (lines.getD lineNo Line.init).point
  let dotProduct := lineNoPoint.dot lineNoDir
  let discriminant := RVOMath.sqr dotProduct + RVOMath.sqr radius -
    RVOMath.absSq lineNoPoint
  if discriminant < 0 then none
  else
    let sqrtDiscriminant := RVOMath.sqrt discriminant
    let clipped := (List.range lineNo).foldl
      (linearProgram1ClipStep lines lineNoDir lineNoPoint)
      (some (-dotProduct - sqrtDiscriminant, -dotProduct + sqrtDiscriminant))
    match clipped with
    | none => none
    | some tLR =>
        if directionOpt then
          if 0 < optVelocity.dot lineNoDir then
            some (lineNoPoint.add (lineNoDir.multiply tLR.2))
          else some (lineNoPoint.add (lineNoDir.multiply tLR.1))
        else
          let t := lineNoDir.dot (optVelocity.subtract lineNoPoint)
          if t < tLR.1 then some (lineNoPoint.add (lineNoDir.multiply tLR.1))
          else if t > tLR.2 then some (lineNoPoint.add (lineNoDir.multiply tLR.2))
          else some (lineNoPoint.add (lineNoDir.multiply t))

/-- Constraint-walking loop of Agent.linearProgram2 (src/dist/Agent.js
lines 383-394), iterating over the remaining constraint indices: when the
current value violates constraint i, re-solve on line i; if that is
infeasible return (i, current value) as the source does by restoring
tempResult and returning i. -/
noncomputable def linearProgram2Loop (lines : List (Line ℝ)) (radius : ℝ)
    (optVelocity : Vector2 ℝ) (directionOpt : Bool) :
    List ℕ → Vector2 ℝ → ℕ × Vector2 ℝ
  | [], v => (lines.length, v)
  | i :: rest, v =>
      if 0 < RVOMath.det (lines.getD i Line.init).direction
          ((lines.getD i Line.init).point.subtract v) then
        match linearProgram1 lines i radius optVelocity directionOpt with
        | none => (i, v)
        | some v1 => linearProgram2Loop lines radius optVelocity directionOpt rest v1
      else linearProgram2Loop lines radius optVelocity directionOpt rest v

/-- Agent.linearProgram2 (src/dist/Agent.js lines 367-396): seed the new
velocity (scaled optimization direction, or the preferred velocity clamped
into the disc), then walk the constraints in order.  Returns the failing
line index (lines.length when all succeed) and the final velocity. -/
noncomputable def linearProgram2 (lines : List (Line ℝ)) (radius : ℝ)
    (optVelocity : Vector2 ℝ) (directionOpt : Bool) : ℕ × Vector2 ℝ :=
  let seed :=
    if directionOpt then optVelocity.multiply radius
    else if RVOMath.absSq optVelocity > RVOMath.sqr radius then
      (RVOMath.normalize optVelocity).multiply radius
    else optVelocity
  linearProgram2Loop lines radius optVelocity directionOpt
    (List.range lines.length) seed

/-- Projected-line construction of Agent.linearProgram3 (src/dist/Agent.js
lines 411-436): all obstacle lines, then for each agent line j < i one
projected line — for near-parallel pairs pointing oppositely the midpoint
line, otherwise the line through the intersection — with direction the
normalized difference of directions; parallel same-direction pairs
contribute nothing. -/
noncomputable def linearProgram3ProjStep (lines : List (Line ℝ)) (i : ℕ)
    (acc : List (Line ℝ)) (j : ℕ) : List (Line ℝ) :=
  let determinant := RVOMath.det (lines.getD i Line.init).direction
    (lines.getD j Line.init).direction
  if |determinant| ≤ RVOMath.RVO_EPSILON then
    if 0 < (lines.getD i Line.init).direction.dot
        (lines.getD j Line.init).direction then acc
    else acc ++ [⟨RVOMath.normalize ((lines.getD j Line.init).direction.subtract
      (lines.getD i Line.init).direction),
      ((lines.getD i Line.init).point.add
        (lines.getD j Line.init).point).multiply 0.5⟩]
  else acc ++ [⟨RVOMath.normalize ((lines.getD j Line.init).direction.subtract
    (lines.getD i Line.init).direction),
    (lines.getD i Line.init).point.add
      ((lines.getD i Line.init).direction.multiply
        (RVOMath.det (lines.getD j Line.init).direction
          ((lines.getD i Line.init).point.subtract
            (lines.getD j Line.init).point) / determinant))⟩]

noncomputable def linearProgram3Proj (lines : List (Line ℝ))
    (numObstLines i : ℕ) : List (Line ℝ) :=
  lines.take numObstLines ++
  (List.range' numObstLines (i - numObstLines)).foldl
    (linearProgram3ProjStep lines i) []

/-- Outer loop of Agent.linearProgram3 (src/dist/Agent.js lines 406-454)
over the lines from beginLine on, threading the current velocity and the
running penetration distance: when line i is violated by more than the
distance, run the direction-optimizing 2-D program on the projected lines;
keep the previous velocity if it reports failure. -/
noncomputable def linearProgram3Loop (lines : List (Line ℝ))
    (numObstLines : ℕ) (radius : ℝ) :
    List ℕ → Vector2 ℝ → ℝ → Vector2 ℝ
  | [], v, _ => v
  | i :: rest, v, distance =>
      if distance < RVOMath.det (lines.getD i Line.init).direction
          ((lines.getD i Line.init).point.subtract v) then
        let projLines := linearProgram3Proj lines numObstLines i
        let result := linearProgram2 projLines radius
          ⟨-(lines.getD i Line.init).direction.y,
            (lines.getD i Line.init).direction.x⟩ true
        let v1 := if result.1 < projLines.length then v else result.2
        linearProgram3Loop lines numObstLines radius rest v1
          (RVOMath.det (lines.getD i Line.init).direction
            ((lines.getD i Line.init).point.subtract v1))
      else linearProgram3Loop lines numObstLines radius rest v distance

/-- Agent.linearProgram3 (src/dist/Agent.js lines 406-454). -/
noncomputable def linearProgram3 (lines : List (Line ℝ))
    (numObstLines beginLine : ℕ) (radius : ℝ) (v : Vector2 ℝ) : Vector2 ℝ :=
  linearProgram3Loop lines numObstLines radius
    (List.range' beginLine (lines.length - beginLine)) v 0

/-- Tail of the obstacle ORCA-line body (src/dist/Agent.js lines 162-228):
reassign foreign legs to the neighboring edges' directions, project the
current velocity onto the cut-off segment and the two legs, handle the two
left/right circle cases, and otherwise emit the line of the closest of
cut-off, left leg and right leg (skipping foreign legs).  The infinite
distances of the source become the top element of WithTop. -/
noncomputable def obstacleORCAFinish (a : Agent ℝ) (invTimeHorizonObst : ℝ)
    (orcaLines : List (Line ℝ)) (pair : ObstaclePair ℝ)
    (relativePosition1 relativePosition2 : Vector2 ℝ)
    (leftLegDirection0 rightLegDirection0 : Vector2 ℝ) : List (Line ℝ) :=
  let obstacle1 := pair.obstacle1
  let obstacle2 := pair.obstacle2
  let isLeftLegForeign := obstacle1.convex = true ∧
    0 ≤ RVOMath.det leftLegDirection0 (pair.previousDirection.negate)
  let leftLegDirection := if isLeftLegForeign then pair.previousDirection.negate
    else leftLegDirection0
  let isRightLegForeign := obstacle2.convex = true ∧
    RVOMath.det rightLegDirection0 obstacle2.direction ≤ 0
  let rightLegDirection := if isRightLegForeign then obstacle2.direction
    else rightLegDirection0
  let leftCutOff := relativePosition1.multiply invTimeHorizonObst
  let rightCutOff := relativePosition2.multiply invTimeHorizonObst
  let cutOffVector := rightCutOff.subtract leftCutOff
  let sameVertex := obstacle1.id = obstacle2.id
  let t := if sameVertex then 0.5
    else ((a.velocity.subtract leftCutOff).dot cutOffVector) /
      RVOMath.absSq cutOffVector
  let tLeft := (a.velocity.subtract leftCutOff).dot leftLegDirection
  let tRight := (a.velocity.subtract rightCutOff).dot rightLegDirection
  if (t < 0 ∧ tLeft < 0) ∨ (sameVertex ∧ tLeft < 0 ∧ tRight < 0) then
    let unitW := RVOMath.normalize (a.velocity.subtract leftCutOff)
    orcaLines ++ [⟨⟨unitW.y, -unitW.x⟩,
      leftCutOff.add (unitW.multiply (a.radius * invTimeHorizonObst))⟩]
  else if 1 < t ∧ tRight < 0 then
    let unitW := RVOMath.normalize (a.velocity.subtract rightCutOff)
    orcaLines ++ [⟨⟨unitW.y, -unitW.x⟩,
      rightCutOff.add (unitW.multiply (a.radius * invTimeHorizonObst))⟩]
  else
    let distSqCutoff : WithTop ℝ := if t < 0 ∨ 1 < t ∨ sameVertex then ⊤
      else ((RVOMath.absSq (a.velocity.subtract
        (leftCutOff.add (cutOffVector.multiply t))) : ℝ) : WithTop ℝ)
    let distSqLeft : WithTop ℝ := if tLeft < 0 then ⊤
      else ((RVOMath.absSq (a.velocity.subtract
        (leftCutOff.add (leftLegDirection.multiply tLeft))) : ℝ) : WithTop ℝ)
    let distSqRight : WithTop ℝ := if tRight < 0 then ⊤
      else ((RVOMath.absSq (a.velocity.subtract
        (rightCutOff.add (rightLegDirection.multiply tRight))) : ℝ) : WithTop ℝ)
    if distSqCutoff ≤ distSqLeft ∧ distSqCutoff ≤ distSqRight then
      let direction := obstacle1.direction.negate
      orcaLines ++ [⟨direction, leftCutOff.add
        ((⟨-direction.y, direction.x⟩ : Vector2 ℝ).multiply
          (a.radius * invTimeHorizonObst))⟩]
    else if distSqLeft ≤ distSqRight then
      if isLeftLegForeign then orcaLines
      else
        let direction := leftLegDirection
        orcaLines ++ [⟨direction, leftCutOff.add
          ((⟨-direction.y, direction.x⟩ : Vector2 ℝ).multiply
            (a.radius * invTimeHorizonObst))⟩]
    else
      if isRightLegForeign then orcaLines
      else
        let direction := rightLegDirection.negate
        orcaLines ++ [⟨direction, rightCutOff.add
          ((⟨-direction.y, direction.x⟩ : Vector2 ℝ).multiply
            (a.radius * invTimeHorizonObst))⟩]

/-- Body of the obstacle ORCA-line loop of Agent.computeNewVelocity for one
obstacle-neighbor edge (src/dist/Agent.js lines 78-229): the coverage test
against the lines emitted so far, the three collision cases, the leg
construction (with the non-convex continue cases), then the tail above.
Every source continue becomes returning the line list unchanged or
extended by the one emitted line. -/
noncomputable def obstacleORCAStep (a : Agent ℝ) (invTimeHorizonObst : ℝ)
    (orcaLines : List (Line ℝ)) (pair : ObstaclePair ℝ) : List (Line ℝ) :=
  let obstacle1 := pair.obstacle1
  let obstacle2 := pair.obstacle2
  let relativePosition1 := obstacle1.point.subtract a.position
  let relativePosition2 := obstacle2.point.subtract a.position
  let alreadyCovered := orcaLines.any (fun line =>
    decide (-RVOMath.RVO_EPSILON ≤
      RVOMath.det ((relativePosition1.multiply invTimeHorizonObst).subtract
        line.point) line.direction - invTimeHorizonObst * a.radius) &&
    decide (-RVOMath.RVO_EPSILON ≤
      RVOMath.det ((relativePosition2.multiply invTimeHorizonObst).subtract
        line.point) line.direction - invTimeHorizonObst * a.radius))
  if alreadyCovered then orcaLines
  else
    let distSq1 := RVOMath.absSq relativePosition1
    let distSq2 := RVOMath.absSq relativePosition2
    let radiusSq := RVOMath.sqr a.radius
    let obstacleVector := obstacle2.point.subtract obstacle1.point
    let s := (-(relativePosition1.dot obstacleVector)) /
      RVOMath.absSq obstacleVector
    let distSqLine := RVOMath.absSq
      ((relativePosition1.negate).subtract (obstacleVector.multiply s))
    if s < 0 ∧ distSq1 ≤ radiusSq then
      (if obstacle1.convex then
        orcaLines ++ [⟨RVOMath.normalize
          ⟨-relativePosition1.y, relativePosition1.x⟩, ⟨0, 0⟩⟩]
      else orcaLines)
    else if 1 < s ∧ distSq2 ≤ radiusSq then
      (if obstacle2.convex then
        orcaLines ++ [⟨RVOMath.normalize
          ⟨-relativePosition2.y, relativePosition2.x⟩, ⟨0, 0⟩⟩]
      else orcaLines)
    else if 0 ≤ s ∧ s ≤ 1 ∧ distSqLine ≤ radiusSq then
      orcaLines ++ [⟨obstacle1.direction.negate, ⟨0, 0⟩⟩]
    else if s < 0 ∧ distSqLine ≤ radiusSq then
      (if obstacle1.convex = false then orcaLines
      else
        let leg1 := RVOMath.sqrt (distSq1 - radiusSq)
        obstacleORCAFinish a invTimeHorizonObst orcaLines pair
          relativePosition1 relativePosition2
          ((⟨relativePosition1.x * leg1 - relativePosition1.y * a.radius,
            relativePosition1.x * a.radius + relativePosition1.y * leg1⟩ :
            Vector2 ℝ).divide distSq1)
          ((⟨relativePosition1.x * leg1 + relativePosition1.y * a.radius,
            -relativePosition1.x * a.radius + relativePosition1.y * leg1⟩ :
            Vector2 ℝ).divide distSq1))
    else if 1 < s ∧ distSqLine ≤ radiusSq then
      (if obstacle2.convex = false then orcaLines
      else
        let leg2 := RVOMath.sqrt (distSq2 - radiusSq)
        obstacleORCAFinish a invTimeHorizonObst orcaLines pair
          relativePosition1 relativePosition2
          ((⟨relativePosition2.x * leg2 - relativePosition2.y * a.radius,
            relativePosition2.x * a.radius + relativePosition2.y * leg2⟩ :
            Vector2 ℝ).divide distSq2)
          ((⟨relativePosition2.x * leg2 + relativePosition2.y * a.radius,
            -relativePosition2.x * a.radius + relativePosition2.y * leg2⟩ :
            Vector2 ℝ).divide distSq2))
    else
      let leftLegDirection := if obstacle1.convex then
          ((⟨relativePosition1.x * RVOMath.sqrt (distSq1 - radiusSq) -
              relativePosition1.y * a.radius,
            relativePosition1.x * a.radius +
              relativePosition1.y * RVOMath.sqrt (distSq1 - radiusSq)⟩ :
            Vector2 ℝ).divide distSq1)
        else obstacle1.direction.negate
      let rightLegDirection := if obstacle2.convex then
          ((⟨relativePosition2.x * RVOMath.sqrt (distSq2 - radiusSq) +
              relativePosition2.y * a.radius,
            -relativePosition2.x * a.radius +
              relativePosition2.y * RVOMath.sqrt (distSq2 - radiusSq)⟩ :
            Vector2 ℝ).divide distSq2)
        else obstacle1.direction
      obstacleORCAFinish a invTimeHorizonObst orcaLines pair
        relativePosition1 relativePosition2 leftLegDirection rightLegDirection

/-- Body of the agent ORCA-line loop of Agent.computeNewVelocity for one
agent neighbor (src/dist/Agent.js lines 232-277); exactly one line is
emitted per neighbor. -/
noncomputable def agentORCAStep (a : Agent ℝ) (invTimeHorizon timeStep : ℝ)
    (orcaLines : List (Line ℝ)) (other : AgentRef ℝ) : List (Line ℝ) :=
  let relativePosition := other.position.subtract a.position
  let relativeVelocity := a.velocity.subtract other.velocity
  let distSq := RVOMath.absSq relativePosition
  let combinedRadius := a.radius + other.radius
  let combinedRadiusSq := RVOMath.sqr combinedRadius
  if combinedRadiusSq < distSq then
    let w := relativeVelocity.subtract (relativePosition.multiply invTimeHorizon)
    let wLengthSq := RVOMath.absSq w
    let dotProduct1 := w.dot relativePosition
    if dotProduct1 < 0 ∧ combinedRadiusSq * wLengthSq < RVOMath.sqr dotProduct1 then
      let wLength := RVOMath.sqrt wLengthSq
      let unitW := w.divide wLength
      let u := unitW.multiply (combinedRadius * invTimeHorizon - wLength)
      orcaLines ++ [⟨⟨unitW.y, -unitW.x⟩, a.velocity.add (u.multiply 0.5)⟩]
    else
      let leg := RVOMath.sqrt (distSq - combinedRadiusSq)
      let direction := if 0 < RVOMath.det relativePosition w then
          ((⟨relativePosition.x * leg - relativePosition.y * combinedRadius,
            relativePosition.x * combinedRadius + relativePosition.y * leg⟩ :
            Vector2 ℝ).divide distSq)
        else
          (((⟨relativePosition.x * leg + relativePosition.y * combinedRadius,
            -relativePosition.x * combinedRadius + relativePosition.y * leg⟩ :
            Vector2 ℝ).divide distSq).negate)
      let dotProduct2 := relativeVelocity.dot direction
      let u := (direction.multiply dotProduct2).subtract relativeVelocity
      orcaLines ++ [⟨direction, a.velocity.add (u.multiply 0.5)⟩]
  else
    let invTimeStep := 1 / timeStep
    let w := relativeVelocity.subtract (relativePosition.multiply invTimeStep)
    let wLength := RVOMath.abs w
    let unitW := w.divide wLength
    let u := unitW.multiply (combinedRadius * invTimeStep - wLength)
    orcaLines ++ [⟨⟨unitW.y, -unitW.x⟩, a.velocity.add (u.multiply 0.5)⟩]

/-- Agent.computeNewVelocity (src/dist/Agent.js lines 73-284): clear the
ORCA lines, fold the obstacle loop over the obstacle neighbors, fold the
agent loop over the agent neighbors, then solve with linearProgram2 and,
on failure, linearProgram3.  The simulator time step is a parameter
(Simulator.Instance.getTimeStep() in the source). -/
noncomputable def computeNewVelocity (timeStep : ℝ) (a : Agent ℝ) : Agent ℝ :=
  let invTimeHorizonObst := 1 / a.timeHorizonObst
  let obstLines := a.obstacleNeighbors.foldl
    (fun acc e => obstacleORCAStep a invTimeHorizonObst acc e.2) []
  let invTimeHorizon := 1 / a.timeHorizon
  let allLines := a.agentNeighbors.foldl
    (fun acc e => agentORCAStep a invTimeHorizon timeStep acc e.2) obstLines
  let numObstLines := obstLines.length
  let lp2res := linearProgram2 allLines a.maxSpeed a.prefVelocity false
  let newVel := if lp2res.1 < allLines.length then
      linearProgram3 allLines numObstLines lp2res.1 a.maxSpeed lp2res.2
    else lp2res.2
  { a with orcaLines := allLines, newVelocity := newVel }

/-- Agent.update (src/dist/Agent.js lines 459-462): commit the new velocity
and advance the position by the committed velocity times the time step. -/
noncomputable def update (timeStep : ℝ) (a : Agent ℝ) : Agent ℝ :=
  { a with velocity := a.newVelocity,
           position := a.position.add (a.newVelocity.multiply timeStep) }

end Agent

namespace KdTree

/-- KdTree.MAX_LEAF_SIZE (src/dist/index.js line 383). -/
def MAX_LEAF_SIZE : ℕ := 10

/-- Inner advance of the partition sweep (src/dist/index.js lines 196-198):
while (left < right and coordinate(left) < splitValue) increment left.  The
fuel argument bounds the iteration count; every call site passes enough
for the loop to run to completion. -/
noncomputable def advanceLeft (coordOf : ℕ → ℝ) (splitValue : ℝ) (right : ℕ) :
    ℕ → ℕ → ℕ
  | 0, left => left
  | fuel + 1, left =>
      if left < right ∧ coordOf left < splitValue then
        advanceLeft coordOf splitValue right fuel (left + 1)
      else left

/-- Inner retreat of the partition sweep (src/dist/index.js lines 199-201):
while (right > left and coordinate(right-1) >= splitValue) decrement
right. -/
noncomputable def retreatRight (coordOf : ℕ → ℝ) (splitValue : ℝ) (left : ℕ) :
    ℕ → ℕ → ℕ
  | 0, right => right
  | fuel + 1, right =>
      if left < right ∧ splitValue ≤ coordOf (right - 1) then
        retreatRight coordOf splitValue left fuel (right - 1)
      else right

/-- Outer partition sweep of buildAgentTreeRecursive (src/dist/index.js
lines 193-209), threading the permuted index array and the two cursors;
the swap branch exchanges the entries at left and right-1. -/
noncomputable def partitionLoop (simAgents : List (Agent ℝ)) (isVertical : Bool)
    (splitValue : ℝ) : ℕ → List ℕ → ℕ → ℕ → List ℕ × ℕ × ℕ
  | 0, ids, left, right => (ids, left, right)
  | fuel + 1, ids, left, right =>
      if left < right then
        let coordOf := fun k =>
          if isVertical then (simAgents.getD (ids.getD k 0) Agent.init).position.x
          else (simAgents.getD (ids.getD k 0) Agent.init).position.y
        let left1 := advanceLeft coordOf splitValue right (right - left) left
        let right1 := retreatRight coordOf splitValue left1 (right - left1) right
        if left1 < right1 then
          let tmp := ids.getD left1 0
          let ids1 := (ids.set left1 (ids.getD (right1 - 1) 0)).set (right1 - 1) tmp
          partitionLoop simAgents isVertical splitValue fuel ids1
            (left1 + 1) (right1 - 1)
        else (ids, left1, right1)
      else (ids, left, right)

/-- KdTree.buildAgentTreeRecursive (src/dist/index.js lines 179-220):
write the range and bounding box into the node, and when the range exceeds
MAX_LEAF_SIZE partition on the longer axis at the bbox midpoint (forcing a
minimum left size of 1) and recurse into node+1 and node+2*leftSize.  The
state is the permuted index array plus the flat node array; fuel bounds
the recursion depth. -/
noncomputable def buildAgentTreeRecursive (simAgents : List (Agent ℝ)) :
    ℕ → List ℕ × List AgentTreeNode → ℕ → ℕ → ℕ → List ℕ × List AgentTreeNode
  | 0, st, _, _, _ => st
  | fuel + 1, (ids, tree), b, e, node =>
      let posOf := fun k => (simAgents.getD (ids.getD k 0) Agent.init).position
      let bbox := (List.range' (b + 1) (e - (b + 1))).foldl (fun acc i =>
          (max acc.1 (posOf i).x, min acc.2.1 (posOf i).x,
           max acc.2.2.1 (posOf i).y, min acc.2.2.2 (posOf i).y))
        ((posOf b).x, (posOf b).x, (posOf b).y, (posOf b).y)
      let node1 := { tree.getD node AgentTreeNode.init with
        beginIdx := b, endIdx := e,
        maxX := bbox.1, minX := bbox.2.1, maxY := bbox.2.2.1, minY := bbox.2.2.2 }
      let tree1 := tree.set node node1
      if MAX_LEAF_SIZE < e - b then
        let isVertical := node1.maxY - node1.minY < node1.maxX - node1.minX
        let splitValue := 0.5 *
          (if isVertical then node1.maxX + node1.minX else node1.maxY + node1.minY)
        let part := partitionLoop simAgents isVertical splitValue (e - b) ids b e
        let leftSize := if part.2.1 - b = 0 then 1 else part.2.1 - b
        let left1 := if part.2.1 - b = 0 then part.2.1 + 1 else part.2.1
        let tree2 := tree1.set node
          { node1 with left := node + 1, right := node + 2 * leftSize }
        let st1 := buildAgentTreeRecursive simAgents fuel (part.1, tree2)
          b left1 (node + 1)
        buildAgentTreeRecursive simAgents fuel st1 left1 e (node + 2 * leftSize)
      else (ids, tree1)

/-- KdTree.buildAgentTree (src/dist/index.js lines 147-161): when the
stored reference array has the wrong length, refill it with the simulator
agents (here: their indices, which the public API keeps equal to their
ids) and allocate 2N fresh nodes; then build recursively over the whole
range.  The fuel passed to the recursion exceeds its real depth. -/
noncomputable def buildAgentTree (s : Simulator) : KdTree :=
  let kd := s.kdTree
  let kd1 := if kd.agents.length ≠ s.getNumAgents then
      { kd with agents := List.range s.getNumAgents,
                agentTree := List.replicate (2 * s.getNumAgents) AgentTreeNode.init }
    else kd
  if kd1.agents.length ≠ 0 then
    let st := buildAgentTreeRecursive s.agents (2 * kd1.agents.length + 2)
      (kd1.agents, kd1.agentTree) 0 kd1.agents.length 0
    { kd1 with agents := st.1, agentTree := st.2 }
  else kd1

/-- KdTree.queryAgentTreeRecursive (src/dist/index.js lines 317-343): at a
leaf insert every enclosed agent; otherwise compute the squared distances
to the two child boxes, descend into the closer child first, and into the
farther one only if its box distance is below the current (possibly
shrunk) range.  The range box becomes the second state component; fuel
bounds the recursion depth. -/
noncomputable def queryAgentTreeRecursive (simAgents : List (Agent ℝ))
    (kd : KdTree) : ℕ → Agent ℝ → ℝ → ℕ → Agent ℝ × ℝ
  | 0, a, rangeSq, _ => (a, rangeSq)
  | fuel + 1, a, rangeSq, node =>
      let nd := kd.agentTree.getD node AgentTreeNode.init
      if nd.endIdx - nd.beginIdx ≤ MAX_LEAF_SIZE then
        (List.range' nd.beginIdx (nd.endIdx - nd.beginIdx)).foldl (fun st i =>
          st.1.insertAgentNeighbor
            (simAgents.getD (kd.agents.getD i 0) Agent.init).toRef st.2)
          (a, rangeSq)
      else
        let ndLeft := kd.agentTree.getD nd.left AgentTreeNode.init
        let ndRight := kd.agentTree.getD nd.right AgentTreeNode.init
        let distSqLeft := RVOMath.sqr (max 0 (ndLeft.minX - a.position.x)) +
          RVOMath.sqr (max 0 (a.position.x - ndLeft.maxX)) +
          RVOMath.sqr (max 0 (ndLeft.minY - a.position.y)) +
          RVOMath.sqr (max 0 (a.position.y - ndLeft.maxY))
        let distSqRight := RVOMath.sqr (max 0 (ndRight.minX - a.position.x)) +
          RVOMath.sqr (max 0 (a.position.x - ndRight.maxX)) +
          RVOMath.sqr (max 0 (ndRight.minY - a.position.y)) +
          RVOMath.sqr (max 0 (a.position.y - ndRight.maxY))
        if distSqLeft < distSqRight then
          if distSqLeft < rangeSq then
            let st1 := queryAgentTreeRecursive simAgents kd fuel a rangeSq nd.left
            if distSqRight < st1.2 then
              queryAgentTreeRecursive simAgents kd fuel st1.1 st1.2 nd.right
            else st1
          else (a, rangeSq)
        else
          if distSqRight < rangeSq then
            let st1 := queryAgentTreeRecursive simAgents kd fuel a rangeSq nd.right
            if distSqLeft < st1.2 then
              queryAgentTreeRecursive simAgents kd fuel st1.1 st1.2 nd.left
            else st1
          else (a, rangeSq)

end KdTree

/-- Agent.computeNeighbors (src/dist/Agent.js lines 60-69): clear the
obstacle-neighbor list and query the obstacle tree with range
(timeHorizonObst * maxSpeed + radius)^2, then clear the agent-neighbor
list and, when maxNeighbors > 0, query the agent tree with range
neighborDist^2 passed in a mutable box (here the threaded second
component). -/
noncomputable def computeNeighbors (s : Simulator) (a : Agent ℝ) : Agent ℝ :=
  let a0 := { a with obstacleNeighbors := [] }
  let rangeSqObst := RVOMath.sqr (a.timeHorizonObst * a.maxSpeed + a.radius)
  let a1 := queryObstacleTreeRecursive a0 rangeSqObst s.kdTree.obstacleTree
  let a2 := { a1 with agentNeighbors := [] }
  if 0 < a.maxNeighbors then
    let rangeSqAg := RVOMath.sqr a.neighborDist
    (KdTree.queryAgentTreeRecursive s.agents s.kdTree
      (2 * s.kdTree.agents.length + 2) a2 rangeSqAg 0).1
  else a2

/-- Simulator.doStep (src/Simulator.ts lines 181-196): rebuild the agent
k-D tree; for each agent compute neighbors and the new velocity (this
phase reads only pre-tick positions and velocities of other agents, so
the per-agent map is the source's sequential loop); then commit every
agent; then advance the global time by the time step and return it. -/
noncomputable def Simulator.doStep (s : Simulator) : ℝ × Simulator :=
  let s1 := { s with kdTree := KdTree.buildAgentTree s }
  let agents1 := s1.agents.map (fun a =>
    Agent.computeNewVelocity s1.timeStep (computeNeighbors s1 a))
  let agents2 := agents1.map (Agent.update s1.timeStep)
  let s2 := { s1 with agents := agents2,
                      globalTime := s1.globalTime + s1.timeStep }
  (s2.globalTime, s2)

section NeighborFrames

/-- The obstacle edges stored at the nodes of an obstacle k-D tree. -/
def ObstacleTree.pairs {α : Type} : ObstacleTree α → List (ObstaclePair α)
  | .empty => []
  | .node o l r => o :: (ObstacleTree.pairs l ++ ObstacleTree.pairs r)

end NeighborFrames

section MathLemmas

variable {α : Type} [LinearOrderedField α]

theorem absSq_nonneg (v : Vector2 α) : 0 ≤ RVOMath.absSq v := by
  have hx : 0 ≤ v.x * v.x := mul_self_nonneg _
  have hy : 0 ≤ v.y * v.y := mul_self_nonneg _
  simp only [RVOMath.absSq, Vector2.dot]
  linarith

theorem absSq_divide (v : Vector2 α) (c : α) :
    RVOMath.absSq (v.divide c) = RVOMath.absSq v / (c * c) := by
  simp only [RVOMath.absSq, Vector2.dot, Vector2.divide]
  rcases eq_or_ne c 0 with h | h
  · simp [h]
  · field_simp

theorem absSq_normalize_le_one (v : Vector2 ℝ) :
    RVOMath.absSq (RVOMath.normalize v) ≤ 1 := by
  rcases eq_or_ne (RVOMath.absSq v) 0 with h | h
  · simp [RVOMath.normalize, RVOMath.abs, absSq_divide, h]
  · have hpos : 0 < RVOMath.absSq v := lt_of_le_of_ne (absSq_nonneg v) (Ne.symm h)
    have hs : Real.sqrt (RVOMath.absSq v) * Real.sqrt (RVOMath.absSq v) =
        RVOMath.absSq v := Real.mul_self_sqrt (le_of_lt hpos)
    rw [RVOMath.normalize, RVOMath.abs, absSq_divide, hs, div_self h]

theorem absSq_divide_sqrt_le_one (v : Vector2 ℝ) (l : ℝ)
    (hl : l = Real.sqrt (RVOMath.absSq v)) :
    RVOMath.absSq (v.divide l) ≤ 1 := by
  subst hl
  exact absSq_normalize_le_one v

end MathLemmas

/-- C10: for the zero vector, the Vector2 normalize instance method (also
reached through the static wrapper) returns (0,0), because the division by
the length is guarded by a length > 0 test; RVOMath.normalize applied to the
zero vector performs the unguarded division zero by zero and returns a
vector both of whose components are NaN. -/
theorem normalize_zero_guarded_vs_nan :
    Vector2F.normalize ⟨JsFloat.num 0, JsFloat.num 0⟩ = ⟨JsFloat.num 0, JsFloat.num 0⟩ ∧
    Vector2F.staticNormalize ⟨JsFloat.num 0, JsFloat.num 0⟩ = ⟨JsFloat.num 0, JsFloat.num 0⟩ ∧
    RVOMathF.normalize ⟨JsFloat.num 0, JsFloat.num 0⟩ = ⟨JsFloat.nan, JsFloat.nan⟩ := by
  have hguard : Vector2F.normalize ⟨JsFloat.num 0, JsFloat.num 0⟩ =
      ⟨JsFloat.num 0, JsFloat.num 0⟩ := by
    simp [Vector2F.normalize, Vector2F.length, JsFloat.mul, JsFloat.add, JsFloat.sqrt,
      JsFloat.lt, Real.sqrt_zero]
  refine ⟨hguard, hguard, ?_⟩
  simp [RVOMathF.normalize, RVOMathF.abs, RVOMathF.absSq, Vector2F.dot, Vector2F.divide,
    JsFloat.mul, JsFloat.add, JsFloat.sqrt, JsFloat.div, Real.sqrt_zero]

section NeighborInsertion

variable {α : Type} [LinearOrderedField α] {β : Type}

theorem shiftInsertRev_length (key : α) (value : β) (l : List (α × β)) :
    (shiftInsertRev key value l).length = l.length + 1 := by
  induction l with
  | nil => rfl
  | cons x rest ih =>
      by_cases h : key < x.1 <;> simp [shiftInsertRev, h, ih]

theorem shiftInsert_length (key : α) (value : β) (l : List (α × β)) :
    (shiftInsert key value l).length = l.length + 1 := by
  simp [shiftInsert, shiftInsertRev_length]

theorem shiftInsertRev_perm (key : α) (value : β) (l : List (α × β)) :
    List.Perm (shiftInsertRev key value l) ((key, value) :: l) := by
  induction l with
  | nil => rfl
  | cons x rest ih =>
      by_cases h : key < x.1
      · simp only [shiftInsertRev, if_pos h]
        exact (ih.cons x).trans (List.Perm.swap _ _ _)
      · simp [shiftInsertRev, h]

theorem shiftInsert_perm (key : α) (value : β) (l : List (α × β)) :
    List.Perm (shiftInsert key value l) ((key, value) :: l) := by
  have h1 : List.Perm (shiftInsert key value l) (shiftInsertRev key value l.reverse) :=
    (List.reverse_perm _)
  have h2 := shiftInsertRev_perm key value l.reverse
  exact h1.trans (h2.trans ((List.reverse_perm l).cons _))

theorem shiftInsert_mem (key : α) (value : β) (l : List (α × β)) (p : α × β)
    (hp : p ∈ shiftInsert key value l) : p = (key, value) ∨ p ∈ l := by
  have := (shiftInsert_perm key value l).mem_iff.mp hp
  simpa using this

theorem shiftInsertRev_head_cases (key : α) (value : β) (l : List (α × β)) :
    (shiftInsertRev key value l).head? = some (key, value) ∨
    (shiftInsertRev key value l).head? = l.head? := by
  cases l with
  | nil => left; rfl
  | cons x rest =>
      by_cases h : key < x.1
      · right; simp [shiftInsertRev, h]
      · left; simp [shiftInsertRev, h]

theorem shiftInsertRev_chain (key : α) (value : β) (l : List (α × β))
    (hl : l.Chain' (fun p q => q.1 ≤ p.1)) :
    (shiftInsertRev key value l).Chain' (fun p q => q.1 ≤ p.1) := by
  induction l with
  | nil => simp [shiftInsertRev]
  | cons x rest ih =>
      rcases List.chain'_cons'.mp hl with ⟨hhead, hrest⟩
      by_cases h : key < x.1
      · simp only [shiftInsertRev, if_pos h]
        refine List.chain'_cons'.mpr ⟨?_, ih hrest⟩
        intro y hy
        rcases shiftInsertRev_head_cases key value rest with hc | hc
        · rw [hc] at hy
          simp only [Option.mem_def, Option.some.injEq] at hy
          rw [← hy]
          exact le_of_lt h
        · rw [hc] at hy
          exact hhead y hy
      · simp only [shiftInsertRev, if_neg h]
        refine List.chain'_cons'.mpr ⟨?_, hl⟩
        intro y hy
        simp only [List.head?_cons, Option.mem_def, Option.some.injEq] at hy
        rw [← hy]
        exact le_of_not_lt h

theorem shiftInsert_chain (key : α) (value : β) (l : List (α × β))
    (hl : l.Chain' (fun p q => p.1 ≤ q.1)) :
    (shiftInsert key value l).Chain' (fun p q => p.1 ≤ q.1) := by
  have hrev : l.reverse.Chain' (fun p q => q.1 ≤ p.1) :=
    List.chain'_reverse.mpr hl
  have hins := shiftInsertRev_chain key value l.reverse hrev
  have : ((shiftInsertRev key value l.reverse).reverse).Chain'
      (fun p q : α × β => p.1 ≤ q.1) := List.chain'_reverse.mpr hins
  exact this

end NeighborInsertion

section AgentNeighborInvariant

variable {α : Type} [LinearOrderedField α]

theorem insertAgentNeighbor_fields (a : Agent α) (o : AgentRef α) (r : α) :
    (a.insertAgentNeighbor o r).1.position = a.position ∧
    (a.insertAgentNeighbor o r).1.maxNeighbors = a.maxNeighbors ∧
    (a.insertAgentNeighbor o r).1.id = a.id ∧
    (a.insertAgentNeighbor o r).1.obstacleNeighbors = a.obstacleNeighbors := by
  unfold Agent.insertAgentNeighbor
  by_cases h1 : a.id ≠ o.id <;>
    by_cases h2 : RVOMath.absSq (a.position.subtract o.position) < r <;>
      simp [h1, h2]

theorem insertAgentNeighbor_inv (a : Agent α) (o : AgentRef α) (r : α)
    (hmax : 0 < a.maxNeighbors)
    (hinv : AgentNeighborInv a.position a.maxNeighbors a.id a.agentNeighbors) :
    AgentNeighborInv a.position a.maxNeighbors a.id
      ((a.insertAgentNeighbor o r).1).agentNeighbors := by
  obtain ⟨hlen, hmem, hchain⟩ := hinv
  unfold Agent.insertAgentNeighbor
  by_cases h1 : a.id ≠ o.id
  · by_cases h2 : RVOMath.absSq (a.position.subtract o.position) < r
    · simp only [h1, h2, if_pos, if_true, ne_eq, not_false_eq_true]
      set distSq := RVOMath.absSq (a.position.subtract o.position) with hdist
      by_cases h3 : a.agentNeighbors.length < a.maxNeighbors
      · simp only [h3, if_pos]
        refine ⟨?_, ?_, ?_⟩
        · rw [shiftInsert_length]
          omega
        · intro p hp
          rcases shiftInsert_mem _ _ _ _ hp with hnew | hold
          · rw [hnew]
            exact ⟨hdist, fun hcontra => h1 hcontra.symm⟩
          · exact hmem p hold
        · exact shiftInsert_chain _ _ _ hchain
      · simp only [h3, if_neg, if_false]
        have hfull : a.agentNeighbors.length = a.maxNeighbors := le_antisymm hlen (not_lt.mp h3)
        refine ⟨?_, ?_, ?_⟩
        · rw [shiftInsert_length, List.length_dropLast]
          omega
        · intro p hp
          rcases shiftInsert_mem _ _ _ _ hp with hnew | hold
          · rw [hnew]
            exact ⟨hdist, fun hcontra => h1 hcontra.symm⟩
          · exact hmem p ((List.dropLast_sublist _).subset hold)
        · refine shiftInsert_chain _ _ _ ?_
          rw [List.dropLast_eq_take]
          exact hchain.take _
    · simp [h1, h2]
      exact ⟨hlen, hmem, hchain⟩
  · simp [Agent.insertAgentNeighbor, h1]
    exact ⟨hlen, hmem, hchain⟩

theorem insertAgentNeighborCalls_inv (pos : Vector2 α) (maxN selfId : ℕ)
    (hmax : 0 < maxN) (others : List (AgentRef α)) :
    ∀ st : Agent α × α,
      st.1.position = pos → st.1.maxNeighbors = maxN → st.1.id = selfId →
      AgentNeighborInv pos maxN selfId st.1.agentNeighbors →
      AgentNeighborInv pos maxN selfId
        (others.foldl (fun st other => Agent.insertAgentNeighbor st.1 other st.2) st).1.agentNeighbors := by
  induction others with
  | nil => intro st _ _ _ h; exact h
  | cons o rest ih =>
      intro st hpos hmaxn hid h
      subst hpos
      subst hmaxn
      subst hid
      have hfields := insertAgentNeighbor_fields st.1 o st.2
      exact ih _ hfields.1 hfields.2.1 hfields.2.2.1
        (insertAgentNeighbor_inv st.1 o st.2 hmax h)

end AgentNeighborInvariant

/-- C4 (amended): computeNeighbors clears the agent-neighbor list and the
k-D tree query then performs a sequence of insertAgentNeighbor calls, so
after any call to doStep each agent-neighbor list arises as such a fold
from the empty list.  For every agent with maxNeighbors > 0 and every call
sequence: the list has at most maxNeighbors entries, each entry's key
equals the squared distance between the agent's position and the stored
neighbor's position, no entry carries the agent's own id, and the keys are
non-decreasing.  (Strict ascent fails when two neighbors are equidistant,
see the counterexample.) -/
theorem agentNeighbors_shape_after_inserts {α : Type} [LinearOrderedField α]
    (a : Agent α) (rangeSq : α) (others : List (AgentRef α))
    (hmax : 0 < a.maxNeighbors) (hempty : a.agentNeighbors = []) :
    (insertAgentNeighborCalls a rangeSq others).1.agentNeighbors.length ≤ a.maxNeighbors ∧
    (∀ p ∈ (insertAgentNeighborCalls a rangeSq others).1.agentNeighbors,
      p.1 = RVOMath.absSq (a.position.subtract p.2.position) ∧ p.2.id ≠ a.id) ∧
    (insertAgentNeighborCalls a rangeSq others).1.agentNeighbors.Chain'
      (fun p q => p.1 ≤ q.1) := by
  have hstart : AgentNeighborInv a.position a.maxNeighbors a.id
      ([] : List (α × AgentRef α)) := ⟨by simp, by simp, by simp⟩
  have h := insertAgentNeighborCalls_inv a.position a.maxNeighbors a.id hmax others
    (a, rangeSq) rfl rfl rfl (by rw [hempty]; exact hstart)
  exact h

/-- C4 counterexample: inserting two distinct neighbors that lie at the
same squared distance 1 from the agent produces the key list [1, 1], so the
keys of the agent-neighbor list are not strictly ascending. -/
theorem agentNeighbors_equal_keys_counterexample :
    ¬ ((insertAgentNeighborCalls
        ({ Agent.init with maxNeighbors := 10 } : Agent ℚ) 100
        [⟨⟨1, 0⟩, ⟨0, 0⟩, 0, 1⟩, ⟨⟨-1, 0⟩, ⟨0, 0⟩, 0, 2⟩]).1.agentNeighbors.Chain'
        (fun p q => p.1 < q.1)) := by
  have hres : (insertAgentNeighborCalls
      ({ Agent.init with maxNeighbors := 10 } : Agent ℚ) 100
      [⟨⟨1, 0⟩, ⟨0, 0⟩, 0, 1⟩, ⟨⟨-1, 0⟩, ⟨0, 0⟩, 0, 2⟩]).1.agentNeighbors =
      [(1, ⟨⟨1, 0⟩, ⟨0, 0⟩, 0, 1⟩), (1, ⟨⟨-1, 0⟩, ⟨0, 0⟩, 0, 2⟩)] := by
    norm_num [insertAgentNeighborCalls, Agent.insertAgentNeighbor, Agent.init,
      RVOMath.absSq, Vector2.dot, Vector2.subtract, shiftInsert, shiftInsertRev]
  rw [hres]
  simp [List.chain'_cons]

/-- C4 witness: the amended shape theorem applied at a concrete input. -/
theorem agentNeighbors_shape_witness :
    (insertAgentNeighborCalls ({ Agent.init with maxNeighbors := 2 } : Agent ℚ) 9
      [⟨⟨1, 0⟩, ⟨0, 0⟩, 0, 1⟩]).1.agentNeighbors.length ≤ 2 := by
  have h := agentNeighbors_shape_after_inserts
    ({ Agent.init with maxNeighbors := 2 } : Agent ℚ) 9
    [⟨⟨1, 0⟩, ⟨0, 0⟩, 0, 1⟩] (by decide) rfl
  exact h.1

theorem agentIdInv_append (l : List (Agent ℝ)) (a : Agent ℝ)
    (ha : a.id = l.length)
    (hinv : ∀ k, k < l.length → (l.getD k Agent.init).id = k) :
    ∀ k, k < (l ++ [a]).length → ((l ++ [a]).getD k Agent.init).id = k := by
  intro k hk
  rw [List.length_append, List.length_singleton] at hk
  rcases lt_or_ge k l.length with h | h
  · have hx := hinv k h
    rw [List.getD_eq_getElem?_getD] at hx
    rw [List.getD_eq_getElem?_getD, List.getElem?_append_left h]
    exact hx
  · have hkeq : k = l.length := by omega
    subst hkeq
    rw [List.getD_eq_getElem?_getD, List.getElem?_append_right h]
    simpa using ha

theorem agentIdInv_fresh : AgentIdInv Simulator.fresh := by
  intro k hk
  simp [Simulator.fresh, Simulator.clear] at hk

/-- C6: ids equal indices.  Both addAgent (when defaults are set) and
addAgentWithParams append one agent whose id is the current list length and
return that id; each add call preserves the invariant that the agent at
index k has id = k, so any sequence of add calls starting from the fresh
simulator satisfies it and ids are never reordered. -/
theorem agent_ids_equal_indices (s : Simulator) (c : AddCall)
    (calls : List AddCall) (hinv : AgentIdInv s) :
    (∀ pos d, s.defaultAgent = some d →
      ∃ a : Agent ℝ, (s.addAgent pos).2.agents = s.agents ++ [a] ∧
        a.id = s.agents.length ∧ (s.addAgent pos).1 = (s.agents.length : ℤ)) ∧
    (∀ pos nd mn th tho r ms v,
      ∃ a : Agent ℝ, (s.addAgentWithParams pos nd mn th tho r ms v).2.agents =
          s.agents ++ [a] ∧
        a.id = s.agents.length ∧
        (s.addAgentWithParams pos nd mn th tho r ms v).1 = (s.agents.length : ℤ)) ∧
    AgentIdInv (applyAddCall s c) ∧
    AgentIdInv (calls.foldl applyAddCall Simulator.fresh) := by
  have haddAgent : ∀ (t : Simulator) pos d, t.defaultAgent = some d →
      ∃ a : Agent ℝ, (t.addAgent pos).2.agents = t.agents ++ [a] ∧
        a.id = t.agents.length ∧ (t.addAgent pos).1 = (t.agents.length : ℤ) := by
    intro t pos d hd
    simp only [Simulator.addAgent, hd]
    exact ⟨_, rfl, rfl, trivial⟩
  have haddParams : ∀ (t : Simulator) pos nd mn th tho r ms v,
      ∃ a : Agent ℝ, (t.addAgentWithParams pos nd mn th tho r ms v).2.agents =
          t.agents ++ [a] ∧
        a.id = t.agents.length ∧
        (t.addAgentWithParams pos nd mn th tho r ms v).1 = (t.agents.length : ℤ) := by
    intro t pos nd mn th tho r ms v
    simp only [Simulator.addAgentWithParams]
    exact ⟨_, rfl, rfl, trivial⟩
  have hstep : ∀ (t : Simulator) (call : AddCall), AgentIdInv t →
      AgentIdInv (applyAddCall t call) := by
    intro t call ht
    cases call with
    | agent pos =>
        show AgentIdInv (t.addAgent pos).2
        cases hd : t.defaultAgent with
        | none =>
            have : (t.addAgent pos).2 = t := by simp [Simulator.addAgent, hd]
            rw [this]
            exact ht
        | some d =>
            obtain ⟨a, hlist, hid, _⟩ := haddAgent t pos d hd
            intro k hk
            rw [hlist] at hk ⊢
            exact agentIdInv_append t.agents a hid ht k hk
    | agentWithParams pos nd mn th tho r ms v =>
        obtain ⟨a, hlist, hid, _⟩ := haddParams t pos nd mn th tho r ms v
        show AgentIdInv (t.addAgentWithParams pos nd mn th tho r ms v).2
        intro k hk
        rw [hlist] at hk ⊢
        exact agentIdInv_append t.agents a hid ht k hk
  refine ⟨haddAgent s, haddParams s, hstep s c hinv, ?_⟩
  have : ∀ (cs : List AddCall) (t : Simulator), AgentIdInv t →
      AgentIdInv (cs.foldl applyAddCall t) := by
    intro cs
    induction cs with
    | nil => intro t ht; exact ht
    | cons c0 rest ih => intro t ht; exact ih _ (hstep t c0 ht)
  exact this calls Simulator.fresh agentIdInv_fresh

/-- C6 witness: the id-stability theorem applied at the fresh simulator and
one concrete call. -/
theorem agent_ids_equal_indices_witness :
    AgentIdInv (applyAddCall Simulator.fresh (AddCall.agentWithParams
      ⟨1, 2⟩ 15 10 10 10 2 2 ⟨0, 0⟩)) :=
  (agent_ids_equal_indices Simulator.fresh
    (AddCall.agentWithParams ⟨1, 2⟩ 15 10 10 10 2 2 ⟨0, 0⟩) []
    agentIdInv_fresh).2.2.1

/-- C3: addAgent called when no agent defaults have been set returns -1 and
leaves the simulator unchanged (no agent appended, no other field
modified); addObstacle called with fewer than 2 vertices returns -1 and
leaves the simulator unchanged. -/
theorem addAgent_addObstacle_sentinels (s t : Simulator) (pos : Vector2 ℝ)
    (vertices : List (Vector2 ℝ)) (hdef : s.defaultAgent = none)
    (hlen : vertices.length < 2) :
    s.addAgent pos = (-1, s) ∧ t.addObstacle vertices = (-1, t) := by
  constructor
  · rw [Simulator.addAgent, hdef]
  · rw [Simulator.addObstacle, if_pos hlen]

/-- C3 witness: the sentinel theorem applied at the fresh simulator, one
position and a one-vertex obstacle. -/
theorem addAgent_addObstacle_sentinels_witness :
    Simulator.fresh.addAgent ⟨1, 2⟩ = (-1, Simulator.fresh) ∧
    Simulator.fresh.addObstacle [⟨0, 0⟩] = (-1, Simulator.fresh) :=
  addAgent_addObstacle_sentinels Simulator.fresh Simulator.fresh ⟨1, 2⟩
    [⟨0, 0⟩] rfl (by decide)

/-- C9: clear() resets the simulator to its initial state: empty agent and
obstacle lists, the default-agent template dropped, a fresh k-D tree, a
global time of zero and the time step reset to 0.1 — overwriting any time
step previously configured with setTimeStep. -/
theorem clear_resets (s : Simulator) (delta : ℝ) :
    s.clear = (⟨[], [], KdTree.init, 1 / 10, none, 0⟩ : Simulator) ∧
    ((s.setTimeStep delta).clear).timeStep = 1 / 10 ∧
    s.clear = Simulator.fresh :=
  ⟨rfl, rfl, rfl⟩

section ObstacleSplitProofs

variable {α : Type} [LinearOrderedField α]

theorem lexPair_total (a b : ℕ × ℕ) (h : ¬ FloatPair.lessThan a b) :
    FloatPair.lessThanOrEqual b a := by
  simp only [FloatPair.lessThan, FloatPair.lessThanOrEqual, not_or, not_and, not_lt] at *
  omega

theorem lexPair_le_of_lt (a b : ℕ × ℕ) (h : FloatPair.lessThan a b) :
    FloatPair.lessThanOrEqual a b :=
  Or.inr h

theorem lexPair_le_refl (a : ℕ × ℕ) : FloatPair.lessThanOrEqual a a :=
  Or.inl ⟨rfl, rfl⟩

theorem lexPair_lt_of_lt_of_le (a b c : ℕ × ℕ) (h1 : FloatPair.lessThan a b)
    (h2 : FloatPair.lessThanOrEqual b c) : FloatPair.lessThan a c := by
  simp only [FloatPair.lessThan, FloatPair.lessThanOrEqual, not_lt] at *
  omega

theorem lexPair_lt_of_le_of_lt (a b c : ℕ × ℕ) (h1 : FloatPair.lessThanOrEqual a b)
    (h2 : FloatPair.lessThan b c) : FloatPair.lessThan a c := by
  simp only [FloatPair.lessThan, FloatPair.lessThanOrEqual, not_lt] at *
  omega

theorem lexPair_le_trans (a b c : ℕ × ℕ) (h1 : FloatPair.lessThanOrEqual a b)
    (h2 : FloatPair.lessThanOrEqual b c) : FloatPair.lessThanOrEqual a c := by
  simp only [FloatPair.lessThan, FloatPair.lessThanOrEqual, not_lt] at *
  omega

theorem splitPair_mono (c1 c2 : ℕ × ℕ) (h1 : c1.1 ≤ c2.1) (h2 : c1.2 ≤ c2.2) :
    FloatPair.lessThanOrEqual (splitPair c1) (splitPair c2) := by
  simp only [splitPair, FloatPair.lessThan, FloatPair.lessThanOrEqual, not_lt]
  omega

theorem splitClassify_le_one (eI eJ : Vector2 α × Vector2 α) :
    (splitClassify eI eJ).1 ≤ 1 ∧ (splitClassify eI eJ).2 ≤ 1 := by
  unfold splitClassify
  by_cases h1 : -RVOMath.RVO_EPSILON ≤ RVOMath.leftOf eI.1 eI.2 eJ.1 ∧
      -RVOMath.RVO_EPSILON ≤ RVOMath.leftOf eI.1 eI.2 eJ.2
  · simp [h1]
  · by_cases h2 : RVOMath.leftOf eI.1 eI.2 eJ.1 ≤ RVOMath.RVO_EPSILON ∧
        RVOMath.leftOf eI.1 eI.2 eJ.2 ≤ RVOMath.RVO_EPSILON
    · simp [h1, h2]
    · simp [h1, h2]

theorem addClassify_bounds (edges : List (Vector2 α × Vector2 α)) (i j : ℕ)
    (counts : ℕ × ℕ) :
    counts.1 ≤ (addClassify edges i j counts).1 ∧
    counts.2 ≤ (addClassify edges i j counts).2 ∧
    (addClassify edges i j counts).1 ≤ counts.1 + 1 ∧
    (addClassify edges i j counts).2 ≤ counts.2 + 1 := by
  have h := splitClassify_le_one (edges.getD i (⟨0, 0⟩, ⟨0, 0⟩))
    (edges.getD j (⟨0, 0⟩, ⟨0, 0⟩))
  unfold addClassify
  exact ⟨Nat.le_add_right _ _, Nat.le_add_right _ _, by omega, by omega⟩

theorem countPartial_nil (edges : List (Vector2 α × Vector2 α)) (i : ℕ)
    (counts : ℕ × ℕ) : countPartial edges i [] counts = counts := rfl

theorem countPartial_cons (edges : List (Vector2 α × Vector2 α)) (i j : ℕ)
    (rest : List ℕ) (counts : ℕ × ℕ) :
    countPartial edges i (j :: rest) counts =
      countPartial edges i rest
        (if i = j then counts else addClassify edges i j counts) := by
  by_cases h : i = j <;> simp [countPartial, List.foldl_cons, h]

theorem countPartial_grows (edges : List (Vector2 α × Vector2 α)) (i : ℕ) :
    ∀ (js : List ℕ) (counts : ℕ × ℕ),
      counts.1 ≤ (countPartial edges i js counts).1 ∧
      counts.2 ≤ (countPartial edges i js counts).2 := by
  intro js
  induction js with
  | nil => intro counts; exact ⟨le_refl _, le_refl _⟩
  | cons j rest ih =>
      intro counts
      rw [countPartial_cons]
      by_cases h : i = j
      · simpa [h] using ih counts
      · have hgrow := addClassify_bounds edges i j counts
        have hrec := ih (addClassify edges i j counts)
        rw [if_neg h]
        exact ⟨le_trans hgrow.1 hrec.1, le_trans hgrow.2.1 hrec.2⟩

theorem countPartial_bound (edges : List (Vector2 α × Vector2 α)) (i : ℕ) :
    ∀ (js : List ℕ) (counts : ℕ × ℕ),
      (countPartial edges i js counts).1 ≤ counts.1 + js.length ∧
      (countPartial edges i js counts).2 ≤ counts.2 + js.length := by
  intro js
  induction js with
  | nil => intro counts; simp [countPartial]
  | cons j rest ih =>
      intro counts
      rw [countPartial_cons, List.length_cons]
      by_cases h : i = j
      · rw [if_pos h]
        have := ih counts
        constructor <;> omega
      · rw [if_neg h]
        have hadd := addClassify_bounds edges i j counts
        have := ih (addClassify edges i j counts)
        constructor <;> omega

theorem countPartial_bound_mem (edges : List (Vector2 α × Vector2 α)) (i : ℕ) :
    ∀ (js : List ℕ) (counts : ℕ × ℕ), i ∈ js →
      (countPartial edges i js counts).1 + 1 ≤ counts.1 + js.length ∧
      (countPartial edges i js counts).2 + 1 ≤ counts.2 + js.length := by
  intro js
  induction js with
  | nil => intro counts h; cases h
  | cons j rest ih =>
      intro counts hmem
      rw [countPartial_cons, List.length_cons]
      by_cases h : i = j
      · rw [if_pos h]
        have := countPartial_bound edges i rest counts
        constructor <;> omega
      · rw [if_neg h]
        have hrest : i ∈ rest := by
          rcases List.mem_cons.mp hmem with heq | hr
          · exact absurd heq h
          · exact hr
        have hadd := addClassify_bounds edges i j counts
        have := ih (addClassify edges i j counts) hrest
        constructor <;> omega

theorem countLoop_break_spec (edges : List (Vector2 α × Vector2 α)) (i : ℕ)
    (best : ℕ × ℕ) :
    ∀ (js : List ℕ) (counts : ℕ × ℕ),
      countLoopWithBreak edges i best js counts = countPartial edges i js counts ∨
      (¬ FloatPair.lessThan (splitPair (countLoopWithBreak edges i best js counts))
          (splitPair best) ∧
       ¬ FloatPair.lessThan (splitPair (countPartial edges i js counts))
          (splitPair best)) := by
  intro js
  induction js with
  | nil => intro counts; left; rfl
  | cons j rest ih =>
      intro counts
      by_cases h : i = j
      · rw [show countLoopWithBreak edges i best (j :: rest) counts =
            countLoopWithBreak edges i best rest counts by
              simp [countLoopWithBreak, h],
          countPartial_cons, if_pos h]
        exact ih counts
      · by_cases hbreak : FloatPair.greaterThanOrEqual
            (splitPair (addClassify edges i j counts)) (splitPair best)
        · right
          rw [show countLoopWithBreak edges i best (j :: rest) counts =
              addClassify edges i j counts by
                simp [countLoopWithBreak, h, hbreak],
            countPartial_cons, if_neg h]
          refine ⟨hbreak, ?_⟩
          intro hcontra
          have hgrow := countPartial_grows edges i rest (addClassify edges i j counts)
          have hle := splitPair_mono (addClassify edges i j counts)
            (countPartial edges i rest (addClassify edges i j counts)) hgrow.1 hgrow.2
          exact hbreak (lexPair_lt_of_le_of_lt _ _ _ hle hcontra)
        · rw [show countLoopWithBreak edges i best (j :: rest) counts =
              countLoopWithBreak edges i best rest (addClassify edges i j counts) by
                simp [countLoopWithBreak, h, hbreak],
            countPartial_cons, if_neg h]
          exact ih (addClassify edges i j counts)

theorem selectSplitStep_eq_spec (edges : List (Vector2 α × Vector2 α))
    (st : ℕ × ℕ × ℕ) (i : ℕ) :
    selectSplitStep edges st i = selectSplitStepSpec edges st i := by
  rcases countLoop_break_spec edges i (st.1, st.2.1) (List.range edges.length) (0, 0)
    with heq | ⟨h1, h2⟩
  · simp only [selectSplitStep, selectSplitStepSpec, countsSpec]
    rw [heq]
  · simp only [selectSplitStep, selectSplitStepSpec, countsSpec]
    rw [if_neg h1, if_neg h2]

theorem selectObstacleSplit_eq_spec (edges : List (Vector2 α × Vector2 α)) :
    selectObstacleSplit edges = selectObstacleSplitSpec edges := by
  unfold selectObstacleSplit selectObstacleSplitSpec
  exact List.foldl_ext _ _ _ (fun st j _ => selectSplitStep_eq_spec edges st j)

theorem selectSpec_argmin (edges : List (Vector2 α × Vector2 α))
    (hne : edges ≠ []) :
    (selectObstacleSplitSpec edges).2.2 < edges.length ∧
    ((selectObstacleSplitSpec edges).1, (selectObstacleSplitSpec edges).2.1) =
      countsSpec edges (selectObstacleSplitSpec edges).2.2 ∧
    ∀ i, i < edges.length → FloatPair.lessThanOrEqual
      (splitPair (countsSpec edges (selectObstacleSplitSpec edges).2.2))
      (splitPair (countsSpec edges i)) := by
  have hn : 0 < edges.length := List.length_pos.mpr hne
  have key : ∀ k, k ≤ edges.length → 1 ≤ k →
      (((List.range k).foldl (selectSplitStepSpec edges)
          (edges.length, edges.length, 0)).2.2 < k ∧
       ((((List.range k).foldl (selectSplitStepSpec edges)
          (edges.length, edges.length, 0)).1,
         ((List.range k).foldl (selectSplitStepSpec edges)
          (edges.length, edges.length, 0)).2.1) =
        countsSpec edges (((List.range k).foldl (selectSplitStepSpec edges)
          (edges.length, edges.length, 0)).2.2)) ∧
       ∀ i, i < k → FloatPair.lessThanOrEqual
         (splitPair (countsSpec edges (((List.range k).foldl
           (selectSplitStepSpec edges) (edges.length, edges.length, 0)).2.2)))
         (splitPair (countsSpec edges i))) := by
    intro k
    induction k with
    | zero => intro _ h1; omega
    | succ k ih =>
        intro hk1 _
        rw [List.range_succ, List.foldl_append, List.foldl_cons, List.foldl_nil]
        by_cases hk0 : k = 0
        · subst hk0
          simp only [List.range_zero, List.foldl_nil]
          have hcnt := countPartial_bound_mem edges 0 (List.range edges.length)
            (0, 0) (List.mem_range.mpr hn)
          rw [List.length_range] at hcnt
          have hlt : FloatPair.lessThan (splitPair (countsSpec edges 0))
              (splitPair (edges.length, edges.length)) := by
            simp only [FloatPair.lessThan, splitPair, countsSpec]
            left
            omega
          simp only [selectSplitStepSpec]
          rw [if_pos hlt]
          refine ⟨Nat.zero_lt_one, Prod.mk.eta, ?_⟩
          intro i hi
          have : i = 0 := by omega
          subst this
          exact lexPair_le_refl _
        · have hk : 1 ≤ k := by omega
          obtain ⟨hopt, heq, hmin⟩ := ih (by omega) hk
          simp only [selectSplitStepSpec]
          by_cases hlt : FloatPair.lessThan (splitPair (countsSpec edges k))
              (splitPair (((List.range k).foldl (selectSplitStepSpec edges)
                (edges.length, edges.length, 0)).1,
                ((List.range k).foldl (selectSplitStepSpec edges)
                (edges.length, edges.length, 0)).2.1))
          · rw [if_pos hlt]
            refine ⟨Nat.lt_succ_self k, Prod.mk.eta, ?_⟩
            intro i hi
            rcases Nat.lt_succ_iff_lt_or_eq.mp hi with hik | hieq
            · rw [heq] at hlt
              exact lexPair_le_of_lt _ _
                (lexPair_lt_of_lt_of_le _ _ _ hlt (hmin i hik))
            · subst hieq
              exact lexPair_le_refl _
          · rw [if_neg hlt]
            refine ⟨by omega, heq, ?_⟩
            intro i hi
            rcases Nat.lt_succ_iff_lt_or_eq.mp hi with hik | hieq
            · exact hmin i hik
            · subst hieq
              have htot := lexPair_total _ _ hlt
              rw [heq] at htot
              exact htot
  have := key edges.length (le_refl _) hn
  exact this

/-- C5: for every non-empty list of obstacle edges, the splitter index
selected by buildObstacleTreeRecursive — the node stores
obstacles[optimalSplit] as its splitter edge — minimizes, lexicographically
over all candidate edges i, the pair (max(L, R), min(L, R)), where L and R
count the other edges classified left and right of line(i) with straddling
edges counted on both sides; and the early-exit in the inner counting loop
does not change the selected state at all. -/
theorem obstacleSplit_minimizes (edges : List (Vector2 α × Vector2 α))
    (hne : edges ≠ []) :
    selectObstacleSplit edges = selectObstacleSplitSpec edges ∧
    (selectObstacleSplit edges).2.2 < edges.length ∧
    ((selectObstacleSplit edges).1, (selectObstacleSplit edges).2.1) =
      countsSpec edges (selectObstacleSplit edges).2.2 ∧
    ∀ i, i < edges.length → FloatPair.lessThanOrEqual
      (splitPair (countsSpec edges (selectObstacleSplit edges).2.2))
      (splitPair (countsSpec edges i)) := by
  have hspec := selectSpec_argmin edges hne
  have heq := selectObstacleSplit_eq_spec edges
  rw [heq]
  exact ⟨rfl, hspec⟩

/-- C5 witness: the splitter-minimality theorem applied to a concrete
two-edge list over the rationals. -/
theorem obstacleSplit_minimizes_witness :
    (selectObstacleSplit
      ([(⟨0, 0⟩, ⟨1, 0⟩), (⟨0, 1⟩, ⟨1, 1⟩)] :
        List (Vector2 ℚ × Vector2 ℚ))).2.2 <
    ([(⟨0, 0⟩, ⟨1, 0⟩), (⟨0, 1⟩, ⟨1, 1⟩)] :
        List (Vector2 ℚ × Vector2 ℚ)).length :=
  (obstacleSplit_minimizes _ (List.cons_ne_nil _ _)).2.1

end ObstacleSplitProofs

section ObstacleQuery

variable {α : Type} [LinearOrderedField α]

theorem insertObstacleNeighbor_eq (a : Agent α) (o : ObstaclePair α) (r : α) :
    a.insertObstacleNeighbor o r =
      (if RVOMath.distSqPointLineSegment o.obstacle1.point o.obstacle2.point
          a.position < r then
        { a with obstacleNeighbors :=
                   shiftInsert
                     (RVOMath.distSqPointLineSegment o.obstacle1.point
                       o.obstacle2.point a.position)
                     o a.obstacleNeighbors }
      else a) := rfl

theorem insertObstacleNeighbor_frame (a : Agent α) (o : ObstaclePair α) (r : α) :
    a.insertObstacleNeighbor o r =
      { a with obstacleNeighbors :=
                 (a.insertObstacleNeighbor o r).obstacleNeighbors } := by
  rw [insertObstacleNeighbor_eq]
  by_cases h : RVOMath.distSqPointLineSegment o.obstacle1.point o.obstacle2.point
      a.position < r
  · rw [if_pos h]
  · rw [if_neg h]

theorem insertObstacleNeighbor_count (a : Agent α) (o : ObstaclePair α) (r : α) :
    ((a.insertObstacleNeighbor o r).obstacleNeighbors :
        Multiset (α × ObstaclePair α)) =
      (a.obstacleNeighbors : Multiset (α × ObstaclePair α)) +
      (if RVOMath.distSqPointLineSegment o.obstacle1.point o.obstacle2.point
          a.position < r then
        {(RVOMath.distSqPointLineSegment o.obstacle1.point o.obstacle2.point
          a.position, o)} else 0) := by
  rw [insertObstacleNeighbor_eq]
  by_cases h : RVOMath.distSqPointLineSegment o.obstacle1.point o.obstacle2.point
      a.position < r
  · rw [if_pos h, if_pos h]
    have hperm := shiftInsert_perm
      (RVOMath.distSqPointLineSegment o.obstacle1.point o.obstacle2.point
        a.position) o a.obstacleNeighbors
    have hco := Multiset.coe_eq_coe.mpr hperm
    show ((shiftInsert _ o a.obstacleNeighbors : List (α × ObstaclePair α)) :
        Multiset (α × ObstaclePair α)) = _
    rw [hco, ← Multiset.cons_coe, ← Multiset.singleton_add]
    exact add_comm _ _
  · rw [if_neg h, if_neg h]
    simp

theorem queryObstacleTree_frame (rangeSq : α) : ∀ (t : ObstacleTree α)
    (a : Agent α),
    queryObstacleTreeRecursive a rangeSq t =
      { a with obstacleNeighbors :=
                 (queryObstacleTreeRecursive a rangeSq t).obstacleNeighbors } := by
  intro t
  induction t with
  | empty => intro a; rfl
  | node o l rt ihl ihr =>
      intro a
      by_cases hs : 0 ≤ RVOMath.leftOf o.obstacle1.point o.obstacle2.point
        a.position
      · have hns : ¬ (RVOMath.leftOf o.obstacle1.point o.obstacle2.point
            a.position < 0) := not_lt.mpr hs
        by_cases hd : RVOMath.sqr (RVOMath.leftOf o.obstacle1.point
            o.obstacle2.point a.position) /
            RVOMath.absSq (o.obstacle2.point.subtract o.obstacle1.point) < rangeSq
        · have hred : queryObstacleTreeRecursive a rangeSq (.node o l rt) =
              queryObstacleTreeRecursive (queryObstacleTreeRecursive a rangeSq l)
                rangeSq rt := by
            simp only [queryObstacleTreeRecursive, hs, hd, hns, if_true, if_false,
              ite_true, ite_false]
          rw [hred, ihr, ihl, ihr]
        · have hred : queryObstacleTreeRecursive a rangeSq (.node o l rt) =
              queryObstacleTreeRecursive a rangeSq l := by
            simp only [queryObstacleTreeRecursive, hs, hd, if_true, if_false,
              ite_true, ite_false]
          rw [hred, ihl]
      · have hlt : RVOMath.leftOf o.obstacle1.point o.obstacle2.point
            a.position < 0 := not_le.mp hs
        by_cases hd : RVOMath.sqr (RVOMath.leftOf o.obstacle1.point
            o.obstacle2.point a.position) /
            RVOMath.absSq (o.obstacle2.point.subtract o.obstacle1.point) < rangeSq
        · have hred : queryObstacleTreeRecursive a rangeSq (.node o l rt) =
              queryObstacleTreeRecursive
                ((queryObstacleTreeRecursive a rangeSq rt).insertObstacleNeighbor
                  o rangeSq) rangeSq l := by
            simp only [queryObstacleTreeRecursive, hs, hd, hlt, if_true, if_false,
              ite_true, ite_false]
          rw [hred, ihl, insertObstacleNeighbor_frame, ihr]
        · have hred : queryObstacleTreeRecursive a rangeSq (.node o l rt) =
              queryObstacleTreeRecursive a rangeSq rt := by
            simp only [queryObstacleTreeRecursive, hs, hd, if_true, if_false,
              ite_true, ite_false]
          rw [hred, ihr]

theorem queryObstacleTree_position (rangeSq : α) (t : ObstacleTree α)
    (a : Agent α) :
    (queryObstacleTreeRecursive a rangeSq t).position = a.position := by
  rw [queryObstacleTree_frame rangeSq t a]

theorem queryObstacleTree_count (rangeSq : α) : ∀ (t : ObstacleTree α)
    (a : Agent α),
    ((queryObstacleTreeRecursive a rangeSq t).obstacleNeighbors :
        Multiset (α × ObstaclePair α)) =
      (a.obstacleNeighbors : Multiset (α × ObstaclePair α)) +
      (insertedObstacleEntries a.position rangeSq t :
        List (α × ObstaclePair α)) := by
  intro t
  induction t with
  | empty => intro a; simp [queryObstacleTreeRecursive, insertedObstacleEntries,
      visitedObstacles]
  | node o l rt ihl ihr =>
      intro a
      by_cases hs : 0 ≤ RVOMath.leftOf o.obstacle1.point o.obstacle2.point
        a.position
      · have hns : ¬ (RVOMath.leftOf o.obstacle1.point o.obstacle2.point
            a.position < 0) := not_lt.mpr hs
        by_cases hd : RVOMath.sqr (RVOMath.leftOf o.obstacle1.point
            o.obstacle2.point a.position) /
            RVOMath.absSq (o.obstacle2.point.subtract o.obstacle1.point) < rangeSq
        · have hred : queryObstacleTreeRecursive a rangeSq (.node o l rt) =
              queryObstacleTreeRecursive (queryObstacleTreeRecursive a rangeSq l)
                rangeSq rt := by
            simp only [queryObstacleTreeRecursive, hs, hd, hns, if_true, if_false,
              ite_true, ite_false]
          have hvis : insertedObstacleEntries a.position rangeSq (.node o l rt) =
              insertedObstacleEntries a.position rangeSq l ++
              insertedObstacleEntries a.position rangeSq rt := by
            simp only [insertedObstacleEntries, visitedObstacles, hs, hd, hns,
              if_true, if_false, ite_true, ite_false]
            simp [List.filter_append]
          rw [hred, ihr, queryObstacleTree_position rangeSq l a, ihl, hvis]
          rw [← Multiset.coe_add]
          abel
        · have hred : queryObstacleTreeRecursive a rangeSq (.node o l rt) =
              queryObstacleTreeRecursive a rangeSq l := by
            simp only [queryObstacleTreeRecursive, hs, hd, if_true, if_false,
              ite_true, ite_false]
          have hvis : insertedObstacleEntries a.position rangeSq (.node o l rt) =
              insertedObstacleEntries a.position rangeSq l := by
            simp only [insertedObstacleEntries, visitedObstacles, hs, hd,
              if_true, if_false, ite_true, ite_false]
          rw [hred, ihl, hvis]
      · have hlt : RVOMath.leftOf o.obstacle1.point o.obstacle2.point
            a.position < 0 := not_le.mp hs
        by_cases hd : RVOMath.sqr (RVOMath.leftOf o.obstacle1.point
            o.obstacle2.point a.position) /
            RVOMath.absSq (o.obstacle2.point.subtract o.obstacle1.point) < rangeSq
        · have hred : queryObstacleTreeRecursive a rangeSq (.node o l rt) =
              queryObstacleTreeRecursive
                ((queryObstacleTreeRecursive a rangeSq rt).insertObstacleNeighbor
                  o rangeSq) rangeSq l := by
            simp only [queryObstacleTreeRecursive, hs, hd, hlt, if_true, if_false,
              ite_true, ite_false]
          have hvis : insertedObstacleEntries a.position rangeSq (.node o l rt) =
              insertedObstacleEntries a.position rangeSq rt ++
              ((if RVOMath.distSqPointLineSegment o.obstacle1.point
                  o.obstacle2.point a.position < rangeSq then
                [(RVOMath.distSqPointLineSegment o.obstacle1.point
                  o.obstacle2.point a.position, o)] else []) ++
               insertedObstacleEntries a.position rangeSq l) := by
            simp only [insertedObstacleEntries, visitedObstacles, hs, hd, hlt,
              if_true, if_false, ite_true, ite_false]
            by_cases hseg : RVOMath.distSqPointLineSegment o.obstacle1.point
                o.obstacle2.point a.position < rangeSq
            · simp [List.filter_append, hseg]
            · simp [List.filter_append, hseg]
          have hpos1 : (queryObstacleTreeRecursive a rangeSq rt).position =
              a.position := queryObstacleTree_position rangeSq rt a
          rw [hred, ihl, insertObstacleNeighbor_frame]
          dsimp only
          rw [hpos1, insertObstacleNeighbor_count, hpos1, ihr, hvis]
          by_cases hseg : RVOMath.distSqPointLineSegment o.obstacle1.point
              o.obstacle2.point a.position < rangeSq
          · simp only [if_pos hseg]
            rw [← Multiset.coe_add, ← Multiset.coe_add]
            simp only [Multiset.coe_singleton]
            abel
          · simp only [if_neg hseg]
            rw [← Multiset.coe_add, ← Multiset.coe_add]
            simp only [Multiset.coe_nil, add_zero]
            abel
        · have hred : queryObstacleTreeRecursive a rangeSq (.node o l rt) =
              queryObstacleTreeRecursive a rangeSq rt := by
            simp only [queryObstacleTreeRecursive, hs, hd, if_true, if_false,
              ite_true, ite_false]
          have hvis : insertedObstacleEntries a.position rangeSq (.node o l rt) =
              insertedObstacleEntries a.position rangeSq rt := by
            simp only [insertedObstacleEntries, visitedObstacles, hs, hd,
              if_true, if_false, ite_true, ite_false]
          rw [hred, ihr, hvis]

end ObstacleQuery

/-- C7: the obstacle-neighbor query never modifies its squared range: the
entries after queryObstacleTreeRecursive are exactly the old entries plus
one entry for every visited edge whose squared point-to-segment distance is
below the initial range (each keyed by that distance) — the range used at
every insertion is the initial one, and insertObstacleNeighbor writes no
range back — in contrast to the agent-neighbor query, whose
insertAgentNeighbor can return a strictly smaller range. -/
theorem obstacleQuery_keeps_range (a : Agent ℝ) (rangeSq : ℝ)
    (t : ObstacleTree ℝ) :
    List.Perm ((queryObstacleTreeRecursive a rangeSq t).obstacleNeighbors)
      (a.obstacleNeighbors ++ insertedObstacleEntries a.position rangeSq t) ∧
    (∃ (b : Agent ℝ) (other : AgentRef ℝ) (r : ℝ),
      (b.insertAgentNeighbor other r).2 < r) := by
  constructor
  · have h := queryObstacleTree_count rangeSq t a
    rw [Multiset.coe_add] at h
    exact Multiset.coe_eq_coe.mp h
  · refine ⟨{ Agent.init with maxNeighbors := 1 }, ⟨⟨1, 0⟩, ⟨0, 0⟩, 0, 1⟩, 100, ?_⟩
    norm_num [Agent.insertAgentNeighbor, Agent.init, RVOMath.absSq,
      Vector2.dot, Vector2.subtract, shiftInsert, shiftInsertRev, List.getLastD]

/-- C8: if the global time is g and the time step is delta before a call
to doStep(), then doStep() returns g + delta and getGlobalTime
subsequently returns g + delta; the global time of a fresh or cleared
simulator is zero. -/
theorem doStep_advances_global_time (s : Simulator) :
    (Simulator.doStep s).1 = s.globalTime + s.timeStep ∧
    Simulator.getGlobalTime (Simulator.doStep s).2 = s.globalTime + s.timeStep ∧
    Simulator.getGlobalTime Simulator.fresh = 0 ∧
    (∀ t : Simulator, Simulator.getGlobalTime t.clear = 0) :=
  ⟨rfl, rfl, rfl, fun _ => rfl⟩

section SolverAlgebra

theorem absSq_multiply (v : Vector2 ℝ) (c : ℝ) :
    RVOMath.absSq (v.multiply c) = RVOMath.absSq v * (c * c) := by
  simp only [RVOMath.absSq, Vector2.dot, Vector2.multiply]
  ring

theorem absSq_negate (v : Vector2 ℝ) :
    RVOMath.absSq v.negate = RVOMath.absSq v := by
  simp only [RVOMath.absSq, Vector2.dot, Vector2.negate]
  ring

theorem absSq_perpCW (v : Vector2 ℝ) :
    RVOMath.absSq (⟨v.y, -v.x⟩ : Vector2 ℝ) = RVOMath.absSq v := by
  simp only [RVOMath.absSq, Vector2.dot]
  ring

theorem absSq_perpCCW (v : Vector2 ℝ) :
    RVOMath.absSq (⟨-v.y, v.x⟩ : Vector2 ℝ) = RVOMath.absSq v := by
  simp only [RVOMath.absSq, Vector2.dot]
  ring

theorem absSq_unitW_le_one (w : Vector2 ℝ) :
    RVOMath.absSq (w.divide (RVOMath.sqrt (RVOMath.absSq w))) ≤ 1 :=
  absSq_divide_sqrt_le_one w _ rfl

theorem absSq_eq_zero_iff (v : Vector2 ℝ) :
    RVOMath.absSq v = 0 ↔ v.x = 0 ∧ v.y = 0 := by
  simp only [RVOMath.absSq, Vector2.dot]
  constructor
  · intro h
    constructor <;> nlinarith [mul_self_nonneg v.x, mul_self_nonneg v.y]
  · rintro ⟨hx, hy⟩
    rw [hx, hy]
    ring

theorem lp1_disc_bound (p d : Vector2 ℝ) (r t : ℝ)
    (hd : RVOMath.absSq d ≤ 1)
    (hdisc : 0 ≤ RVOMath.sqr (p.dot d) + RVOMath.sqr r - RVOMath.absSq p)
    (htl : -(p.dot d) - RVOMath.sqrt (RVOMath.sqr (p.dot d) + RVOMath.sqr r -
      RVOMath.absSq p) ≤ t)
    (htr : t ≤ -(p.dot d) + RVOMath.sqrt (RVOMath.sqr (p.dot d) + RVOMath.sqr r -
      RVOMath.absSq p)) :
    RVOMath.absSq (p.add (d.multiply t)) ≤ RVOMath.sqr r := by
  have hs : RVOMath.sqrt (RVOMath.sqr (p.dot d) + RVOMath.sqr r -
      RVOMath.absSq p) * RVOMath.sqrt (RVOMath.sqr (p.dot d) + RVOMath.sqr r -
      RVOMath.absSq p) = RVOMath.sqr (p.dot d) + RVOMath.sqr r -
      RVOMath.absSq p := Real.mul_self_sqrt hdisc
  have hsq : (t + p.dot d) * (t + p.dot d) ≤ RVOMath.sqr (p.dot d) +
      RVOMath.sqr r - RVOMath.absSq p := by
    have hnn : 0 ≤ RVOMath.sqrt (RVOMath.sqr (p.dot d) + RVOMath.sqr r -
        RVOMath.absSq p) := Real.sqrt_nonneg _
    nlinarith
  have hexp : RVOMath.absSq (p.add (d.multiply t)) =
      RVOMath.absSq p + 2 * t * (p.dot d) + t * t * RVOMath.absSq d := by
    simp only [RVOMath.absSq, Vector2.dot, Vector2.add, Vector2.multiply]
    ring
  have ht2 : t * t * RVOMath.absSq d ≤ t * t := by
    nlinarith [mul_self_nonneg t, absSq_nonneg d]
  rw [hexp]
  simp only [RVOMath.sqr] at hsq ⊢
  nlinarith

theorem absSq_leftLeg (p : Vector2 ℝ) (rho : ℝ)
    (h : RVOMath.sqr rho < RVOMath.absSq p) :
    RVOMath.absSq ((⟨p.x * RVOMath.sqrt (RVOMath.absSq p - RVOMath.sqr rho) -
        p.y * rho,
      p.x * rho + p.y * RVOMath.sqrt (RVOMath.absSq p - RVOMath.sqr rho)⟩ :
      Vector2 ℝ).divide (RVOMath.absSq p)) = 1 := by
  have hpos : 0 < RVOMath.absSq p :=
    lt_of_le_of_lt (mul_self_nonneg rho) h
  have hl : RVOMath.sqrt (RVOMath.absSq p - RVOMath.sqr rho) *
      RVOMath.sqrt (RVOMath.absSq p - RVOMath.sqr rho) =
      RVOMath.absSq p - RVOMath.sqr rho := by
    apply Real.mul_self_sqrt
    simp only [RVOMath.sqr] at h ⊢
    linarith
  rw [absSq_divide]
  have hnum : RVOMath.absSq (⟨p.x * RVOMath.sqrt (RVOMath.absSq p -
        RVOMath.sqr rho) - p.y * rho,
      p.x * rho + p.y * RVOMath.sqrt (RVOMath.absSq p - RVOMath.sqr rho)⟩ :
      Vector2 ℝ) = RVOMath.absSq p * RVOMath.absSq p := by
    simp only [RVOMath.absSq, Vector2.dot, RVOMath.sqr] at hl ⊢
    nlinarith [hl]
  rw [hnum, div_self (ne_of_gt (mul_pos hpos hpos))]

theorem absSq_rightLeg (p : Vector2 ℝ) (rho : ℝ)
    (h : RVOMath.sqr rho < RVOMath.absSq p) :
    RVOMath.absSq ((⟨p.x * RVOMath.sqrt (RVOMath.absSq p - RVOMath.sqr rho) +
        p.y * rho,
      -p.x * rho + p.y * RVOMath.sqrt (RVOMath.absSq p - RVOMath.sqr rho)⟩ :
      Vector2 ℝ).divide (RVOMath.absSq p)) = 1 := by
  have hpos : 0 < RVOMath.absSq p :=
    lt_of_le_of_lt (mul_self_nonneg rho) h
  have hl : RVOMath.sqrt (RVOMath.absSq p - RVOMath.sqr rho) *
      RVOMath.sqrt (RVOMath.absSq p - RVOMath.sqr rho) =
      RVOMath.absSq p - RVOMath.sqr rho := by
    apply Real.mul_self_sqrt
    simp only [RVOMath.sqr] at h ⊢
    linarith
  rw [absSq_divide]
  have hnum : RVOMath.absSq (⟨p.x * RVOMath.sqrt (RVOMath.absSq p -
        RVOMath.sqr rho) + p.y * rho,
      -p.x * rho + p.y * RVOMath.sqrt (RVOMath.absSq p - RVOMath.sqr rho)⟩ :
      Vector2 ℝ) = RVOMath.absSq p * RVOMath.absSq p := by
    simp only [RVOMath.absSq, Vector2.dot, RVOMath.sqr] at hl ⊢
    nlinarith [hl]
  rw [hnum, div_self (ne_of_gt (mul_pos hpos hpos))]

theorem abs_le_of_absSq_le (v : Vector2 ℝ) (r : ℝ)
    (h : RVOMath.absSq v ≤ RVOMath.sqr r) (hr : 0 ≤ r) :
    RVOMath.abs v ≤ r := by
  have h1 : RVOMath.abs v ≤ Real.sqrt (RVOMath.sqr r) := by
    unfold RVOMath.abs
    exact Real.sqrt_le_sqrt h
  have h2 : Real.sqrt (RVOMath.sqr r) = r := by
    unfold RVOMath.sqr
    exact Real.sqrt_mul_self hr
  rw [h2] at h1
  exact h1

end SolverAlgebra

section LinearProgramBounds

theorem lp1Clip_fold_none (lines : List (Line ℝ)) (dir pt : Vector2 ℝ)
    (js : List ℕ) :
    js.foldl (Agent.linearProgram1ClipStep lines dir pt) none = none := by
  induction js with
  | nil => rfl
  | cons j rest ih =>
      rw [List.foldl_cons]
      exact ih

theorem lp1ClipStep_bounds (lines : List (Line ℝ)) (dir pt : Vector2 ℝ)
    (a0 b0 : ℝ) (i : ℕ) (a1 b1 : ℝ)
    (hstep : Agent.linearProgram1ClipStep lines dir pt (some (a0, b0)) i =
      some (a1, b1)) :
    a0 ≤ a1 ∧ b1 ≤ b0 ∧ (a0 ≤ b0 → a1 ≤ b1) := by
  unfold Agent.linearProgram1ClipStep at hstep
  rw [Option.some_bind] at hstep
  by_cases h1 : |RVOMath.det dir (lines.getD i Line.init).direction| ≤
      RVOMath.RVO_EPSILON
  · simp only [if_pos h1] at hstep
    by_cases h2 : RVOMath.det (lines.getD i Line.init).direction
        (pt.subtract (lines.getD i Line.init).point) < 0
    · simp only [if_pos h2] at hstep
      cases hstep
    · simp only [if_neg h2, Option.some.injEq, Prod.mk.injEq] at hstep
      obtain ⟨h3, h4⟩ := hstep
      subst h3
      subst h4
      exact ⟨le_refl _, le_refl _, id⟩
  · simp only [if_neg h1] at hstep
    by_cases h3 : 0 ≤ RVOMath.det dir (lines.getD i Line.init).direction
    · simp only [if_pos h3] at hstep
      by_cases h4 : (min b0 (RVOMath.det (lines.getD i Line.init).direction
          (pt.subtract (lines.getD i Line.init).point) /
          RVOMath.det dir (lines.getD i Line.init).direction)) < a0
      · simp only [if_pos h4] at hstep
        cases hstep
      · simp only [if_neg h4, Option.some.injEq, Prod.mk.injEq] at hstep
        obtain ⟨h5, h6⟩ := hstep
        subst h5
        subst h6
        exact ⟨le_refl _, min_le_left _ _, fun _ => not_lt.mp h4⟩
    · simp only [if_neg h3] at hstep
      by_cases h4 : b0 < max a0 (RVOMath.det (lines.getD i Line.init).direction
          (pt.subtract (lines.getD i Line.init).point) /
          RVOMath.det dir (lines.getD i Line.init).direction)
      · simp only [if_pos h4] at hstep
        cases hstep
      · simp only [if_neg h4, Option.some.injEq, Prod.mk.injEq] at hstep
        obtain ⟨h5, h6⟩ := hstep
        subst h5
        subst h6
        exact ⟨le_max_left _ _, le_refl _, fun _ => not_lt.mp h4⟩

theorem lp1Clip_fold_bounds (lines : List (Line ℝ)) (dir pt : Vector2 ℝ) :
    ∀ (js : List ℕ) (a0 b0 a b : ℝ),
      js.foldl (Agent.linearProgram1ClipStep lines dir pt) (some (a0, b0)) =
        some (a, b) →
      a0 ≤ b0 → a0 ≤ a ∧ b ≤ b0 ∧ a ≤ b := by
  intro js
  induction js with
  | nil =>
      intro a0 b0 a b hfold hle
      simp only [List.foldl_nil, Option.some.injEq, Prod.mk.injEq] at hfold
      obtain ⟨h1, h2⟩ := hfold
      subst h1
      subst h2
      exact ⟨le_refl _, le_refl _, hle⟩
  | cons j rest ih =>
      intro a0 b0 a b hfold hle
      rw [List.foldl_cons] at hfold
      rcases hst : Agent.linearProgram1ClipStep lines dir pt (some (a0, b0)) j with
        _ | p
      · rw [hst, lp1Clip_fold_none] at hfold
        cases hfold
      · obtain ⟨a1, b1⟩ := p
        rw [hst] at hfold
        obtain ⟨s1, s2, s3⟩ := lp1ClipStep_bounds lines dir pt a0 b0 j a1 b1 hst
        obtain ⟨r1, r2, r3⟩ := ih a1 b1 a b hfold (s3 hle)
        exact ⟨le_trans s1 r1, le_trans r2 s2, r3⟩

theorem linearProgram1_in_disc (lines : List (Line ℝ)) (lineNo : ℕ)
    (radius : ℝ) (optVelocity : Vector2 ℝ) (dOpt : Bool) (v : Vector2 ℝ)
    (hdir : RVOMath.absSq (lines.getD lineNo Line.init).direction ≤ 1)
    (hres : Agent.linearProgram1 lines lineNo radius optVelocity dOpt = some v) :
    RVOMath.absSq v ≤ RVOMath.sqr radius := by
  unfold Agent.linearProgram1 at hres
  set dir := (lines.getD lineNo Line.init).direction with hdirdef
  set pt := (lines.getD lineNo Line.init).point with hptdef
  by_cases h0 : RVOMath.sqr (pt.dot dir) + RVOMath.sqr radius -
      RVOMath.absSq pt < 0
  · rw [if_pos h0] at hres
    cases hres
  · rw [if_neg h0] at hres
    have hdisc : 0 ≤ RVOMath.sqr (pt.dot dir) + RVOMath.sqr radius -
        RVOMath.absSq pt := not_lt.mp h0
    have hres2 : (match (List.range lineNo).foldl
        (Agent.linearProgram1ClipStep lines dir pt)
        (some (-(pt.dot dir) - RVOMath.sqrt (RVOMath.sqr (pt.dot dir) +
            RVOMath.sqr radius - RVOMath.absSq pt),
          -(pt.dot dir) + RVOMath.sqrt (RVOMath.sqr (pt.dot dir) +
            RVOMath.sqr radius - RVOMath.absSq pt))) with
      | none => (none : Option (Vector2 ℝ))
      | some tLR =>
          if dOpt then
            if 0 < optVelocity.dot dir then
              some (pt.add (dir.multiply tLR.2))
            else some (pt.add (dir.multiply tLR.1))
          else
            let t := dir.dot (optVelocity.subtract pt)
            if t < tLR.1 then some (pt.add (dir.multiply tLR.1))
            else if t > tLR.2 then some (pt.add (dir.multiply tLR.2))
            else some (pt.add (dir.multiply t))) = some v := hres
    rcases hclip : (List.range lineNo).foldl
        (Agent.linearProgram1ClipStep lines dir pt)
        (some (-(pt.dot dir) - RVOMath.sqrt (RVOMath.sqr (pt.dot dir) +
            RVOMath.sqr radius - RVOMath.absSq pt),
          -(pt.dot dir) + RVOMath.sqrt (RVOMath.sqr (pt.dot dir) +
            RVOMath.sqr radius - RVOMath.absSq pt))) with _ | tLR
    · rw [hclip] at hres2
      cases hres2
    · rw [hclip] at hres2
      obtain ⟨tL, tR⟩ := tLR
      have hinit : -(pt.dot dir) - RVOMath.sqrt (RVOMath.sqr (pt.dot dir) +
          RVOMath.sqr radius - RVOMath.absSq pt) ≤
          -(pt.dot dir) + RVOMath.sqrt (RVOMath.sqr (pt.dot dir) +
          RVOMath.sqr radius - RVOMath.absSq pt) := by
        have := Real.sqrt_nonneg (RVOMath.sqr (pt.dot dir) +
          RVOMath.sqr radius - RVOMath.absSq pt)
        unfold RVOMath.sqrt at *
        linarith
      obtain ⟨hl, hr, hlr⟩ := lp1Clip_fold_bounds lines dir pt
        (List.range lineNo) _ _ tL tR hclip hinit
      have hbound : ∀ t : ℝ, tL ≤ t → t ≤ tR →
          RVOMath.absSq (pt.add (dir.multiply t)) ≤ RVOMath.sqr radius := by
        intro t h1 h2
        exact lp1_disc_bound pt dir radius t hdir hdisc
          (le_trans hl h1) (le_trans h2 hr)
      rcases dOpt with _ | _
      · simp only [Bool.false_eq_true, if_false, ite_false] at hres2
        by_cases ht1 : dir.dot (optVelocity.subtract pt) < tL
        · simp only [if_pos ht1, Option.some.injEq] at hres2
          rw [← hres2]
          exact hbound tL (le_refl _) hlr
        · simp only [if_neg ht1] at hres2
          by_cases ht2 : dir.dot (optVelocity.subtract pt) > tR
          · simp only [if_pos ht2, Option.some.injEq] at hres2
            rw [← hres2]
            exact hbound tR hlr (le_refl _)
          · simp only [if_neg ht2, Option.some.injEq] at hres2
            rw [← hres2]
            exact hbound _ (not_lt.mp ht1) (not_lt.mp ht2)
      · simp only [if_true, ite_true] at hres2
        by_cases hov : 0 < optVelocity.dot dir
        · simp only [if_pos hov, Option.some.injEq] at hres2
          rw [← hres2]
          exact hbound tR hlr (le_refl _)
        · simp only [if_neg hov, Option.some.injEq] at hres2
          rw [← hres2]
          exact hbound tL (le_refl _) hlr

end LinearProgramBounds

section LinearProgram2Bounds

theorem dirs_getD_le_one (ls : List (Line ℝ))
    (h : ∀ line ∈ ls, RVOMath.absSq line.direction ≤ 1) (k : ℕ) :
    RVOMath.absSq (ls.getD k Line.init).direction ≤ 1 := by
  by_cases hk : k < ls.length
  · rw [List.getD_eq_getElem?_getD, List.getElem?_eq_getElem hk, Option.getD_some]
    exact h _ (List.getElem_mem hk)
  · rw [List.getD_eq_default ls Line.init (not_lt.mp hk)]
    simp [Line.init, RVOMath.absSq, Vector2.dot]

theorem linearProgram2Loop_in_disc (lines : List (Line ℝ)) (radius : ℝ)
    (optV : Vector2 ℝ) (dOpt : Bool)
    (hdirs : ∀ i : ℕ, RVOMath.absSq (lines.getD i Line.init).direction ≤ 1) :
    ∀ (js : List ℕ) (v : Vector2 ℝ), RVOMath.absSq v ≤ RVOMath.sqr radius →
      RVOMath.absSq (Agent.linearProgram2Loop lines radius optV dOpt js v).2 ≤
        RVOMath.sqr radius := by
  intro js
  induction js with
  | nil => intro v hv; exact hv
  | cons i rest ih =>
      intro v hv
      by_cases hdet : 0 < RVOMath.det (lines.getD i Line.init).direction
          ((lines.getD i Line.init).point.subtract v)
      · rcases hlp : Agent.linearProgram1 lines i radius optV dOpt with _ | v1
        · have hred : Agent.linearProgram2Loop lines radius optV dOpt
              (i :: rest) v = (i, v) := by
            simp only [Agent.linearProgram2Loop, if_pos hdet, hlp]
          rw [hred]
          exact hv
        · have hred : Agent.linearProgram2Loop lines radius optV dOpt
              (i :: rest) v =
              Agent.linearProgram2Loop lines radius optV dOpt rest v1 := by
            simp only [Agent.linearProgram2Loop, if_pos hdet, hlp]
          rw [hred]
          exact ih v1 (linearProgram1_in_disc lines i radius optV dOpt v1
            (hdirs i) hlp)
      · have hred : Agent.linearProgram2Loop lines radius optV dOpt
            (i :: rest) v =
            Agent.linearProgram2Loop lines radius optV dOpt rest v := by
          simp only [Agent.linearProgram2Loop, if_neg hdet]
        rw [hred]
        exact ih v hv

theorem linearProgram2_in_disc (lines : List (Line ℝ)) (radius : ℝ)
    (optV : Vector2 ℝ) (dOpt : Bool)
    (hdirs : ∀ i : ℕ, RVOMath.absSq (lines.getD i Line.init).direction ≤ 1)
    (hopt : dOpt = true → RVOMath.absSq optV ≤ 1) :
    RVOMath.absSq (Agent.linearProgram2 lines radius optV dOpt).2 ≤
      RVOMath.sqr radius := by
  unfold Agent.linearProgram2
  apply linearProgram2Loop_in_disc lines radius optV dOpt hdirs
  rcases dOpt with _ | _
  · simp only [Bool.false_eq_true, if_false, ite_false]
    by_cases habs : RVOMath.absSq optV > RVOMath.sqr radius
    · simp only [if_pos habs]
      rw [absSq_multiply]
      calc RVOMath.absSq (RVOMath.normalize optV) * (radius * radius) ≤
          1 * (radius * radius) :=
            mul_le_mul_of_nonneg_right (absSq_normalize_le_one optV)
              (mul_self_nonneg radius)
        _ = RVOMath.sqr radius := by rw [one_mul]; rfl
    · simp only [if_neg habs]
      exact not_lt.mp habs
  · simp only [if_true, ite_true]
    rw [absSq_multiply]
    calc RVOMath.absSq optV * (radius * radius) ≤ 1 * (radius * radius) :=
          mul_le_mul_of_nonneg_right (hopt rfl) (mul_self_nonneg radius)
      _ = RVOMath.sqr radius := by rw [one_mul]; rfl

end LinearProgram2Bounds

section LinearProgram3Bounds

theorem linearProgram3ProjStep_dirs (lines : List (Line ℝ)) (i : ℕ)
    (acc : List (Line ℝ)) (j : ℕ)
    (hacc : ∀ line ∈ acc, RVOMath.absSq line.direction ≤ 1) :
    ∀ line ∈ Agent.linearProgram3ProjStep lines i acc j,
      RVOMath.absSq line.direction ≤ 1 := by
  intro line hline
  by_cases h1 : |RVOMath.det (lines.getD i Line.init).direction
      (lines.getD j Line.init).direction| ≤ RVOMath.RVO_EPSILON
  · by_cases h2 : 0 < (lines.getD i Line.init).direction.dot
        (lines.getD j Line.init).direction
    · simp only [Agent.linearProgram3ProjStep, if_pos h1, if_pos h2] at hline
      exact hacc line hline
    · simp only [Agent.linearProgram3ProjStep, if_pos h1, if_neg h2,
        List.mem_append, List.mem_singleton] at hline
      rcases hline with hold | hnew
      · exact hacc line hold
      · rw [hnew]
        exact absSq_normalize_le_one _
  · simp only [Agent.linearProgram3ProjStep, if_neg h1,
      List.mem_append, List.mem_singleton] at hline
    rcases hline with hold | hnew
    · exact hacc line hold
    · rw [hnew]
      exact absSq_normalize_le_one _

theorem linearProgram3ProjFold_dirs (lines : List (Line ℝ)) (i : ℕ) :
    ∀ (js : List ℕ) (acc : List (Line ℝ)),
      (∀ line ∈ acc, RVOMath.absSq line.direction ≤ 1) →
      ∀ line ∈ js.foldl (Agent.linearProgram3ProjStep lines i) acc,
        RVOMath.absSq line.direction ≤ 1 := by
  intro js
  induction js with
  | nil => intro acc hacc; exact hacc
  | cons j rest ih =>
      intro acc hacc
      rw [List.foldl_cons]
      exact ih _ (linearProgram3ProjStep_dirs lines i acc j hacc)

theorem linearProgram3Proj_dirs (lines : List (Line ℝ)) (numObstLines i : ℕ)
    (hmem : ∀ line ∈ lines, RVOMath.absSq line.direction ≤ 1) :
    ∀ line ∈ Agent.linearProgram3Proj lines numObstLines i,
      RVOMath.absSq line.direction ≤ 1 := by
  intro line hline
  unfold Agent.linearProgram3Proj at hline
  rw [List.mem_append] at hline
  rcases hline with htake | hfold
  · exact hmem line (List.mem_of_mem_take htake)
  · exact linearProgram3ProjFold_dirs lines i _ [] (by simp) line hfold

theorem linearProgram3Loop_in_disc (lines : List (Line ℝ))
    (numObstLines : ℕ) (radius : ℝ)
    (hmem : ∀ line ∈ lines, RVOMath.absSq line.direction ≤ 1) :
    ∀ (js : List ℕ) (v : Vector2 ℝ) (dist : ℝ),
      RVOMath.absSq v ≤ RVOMath.sqr radius →
      RVOMath.absSq (Agent.linearProgram3Loop lines numObstLines radius js
        v dist) ≤ RVOMath.sqr radius := by
  intro js
  induction js with
  | nil => intro v dist hv; exact hv
  | cons i rest ih =>
      intro v dist hv
      by_cases hviol : dist < RVOMath.det (lines.getD i Line.init).direction
          ((lines.getD i Line.init).point.subtract v)
      · have hproj := linearProgram3Proj_dirs lines numObstLines i hmem
        have hlp2 := linearProgram2_in_disc
          (Agent.linearProgram3Proj lines numObstLines i) radius
          ⟨-(lines.getD i Line.init).direction.y,
            (lines.getD i Line.init).direction.x⟩ true
          (dirs_getD_le_one _ hproj)
          (fun _ => by
            rw [absSq_perpCCW]
            exact dirs_getD_le_one lines hmem i)
        by_cases hfail : (Agent.linearProgram2
            (Agent.linearProgram3Proj lines numObstLines i) radius
            ⟨-(lines.getD i Line.init).direction.y,
              (lines.getD i Line.init).direction.x⟩ true).1 <
            (Agent.linearProgram3Proj lines numObstLines i).length
        · have hred : Agent.linearProgram3Loop lines numObstLines radius
              (i :: rest) v dist =
              Agent.linearProgram3Loop lines numObstLines radius rest v
                (RVOMath.det (lines.getD i Line.init).direction
                  ((lines.getD i Line.init).point.subtract v)) := by
            simp only [Agent.linearProgram3Loop, if_pos hviol, if_pos hfail]
          rw [hred]
          exact ih v _ hv
        · have hred : Agent.linearProgram3Loop lines numObstLines radius
              (i :: rest) v dist =
              Agent.linearProgram3Loop lines numObstLines radius rest
                (Agent.linearProgram2
                  (Agent.linearProgram3Proj lines numObstLines i) radius
                  ⟨-(lines.getD i Line.init).direction.y,
                    (lines.getD i Line.init).direction.x⟩ true).2
                (RVOMath.det (lines.getD i Line.init).direction
                  ((lines.getD i Line.init).point.subtract
                    (Agent.linearProgram2
                      (Agent.linearProgram3Proj lines numObstLines i) radius
                      ⟨-(lines.getD i Line.init).direction.y,
                        (lines.getD i Line.init).direction.x⟩ true).2)) := by
            simp only [Agent.linearProgram3Loop, if_pos hviol, if_neg hfail]
          rw [hred]
          exact ih _ _ hlp2
      · have hred : Agent.linearProgram3Loop lines numObstLines radius
            (i :: rest) v dist =
            Agent.linearProgram3Loop lines numObstLines radius rest v dist := by
          simp only [Agent.linearProgram3Loop, if_neg hviol]
        rw [hred]
        exact ih v dist hv

theorem linearProgram3_in_disc (lines : List (Line ℝ))
    (numObstLines beginLine : ℕ) (radius : ℝ) (v : Vector2 ℝ)
    (hmem : ∀ line ∈ lines, RVOMath.absSq line.direction ≤ 1)
    (hv : RVOMath.absSq v ≤ RVOMath.sqr radius) :
    RVOMath.absSq (Agent.linearProgram3 lines numObstLines beginLine radius v) ≤
      RVOMath.sqr radius :=
  linearProgram3Loop_in_disc lines numObstLines radius hmem _ v 0 hv

end LinearProgram3Bounds

section ORCADirectionBounds

theorem distSqLine_le_absSq1 (rp ov : Vector2 ℝ) :
    RVOMath.absSq ((rp.negate).subtract
      (ov.multiply ((-(rp.dot ov)) / RVOMath.absSq ov))) ≤ RVOMath.absSq rp := by
  by_cases hA : RVOMath.absSq ov = 0
  · obtain ⟨hx, hy⟩ := (absSq_eq_zero_iff ov).mp hA
    simp only [RVOMath.absSq, Vector2.dot, Vector2.negate, Vector2.subtract,
      Vector2.multiply, hx, hy]
    nlinarith [mul_self_nonneg rp.x, mul_self_nonneg rp.y]
  · have hA0 : 0 < RVOMath.absSq ov :=
      lt_of_le_of_ne (absSq_nonneg ov) (Ne.symm hA)
    have hexp : RVOMath.absSq ((rp.negate).subtract
        (ov.multiply ((-(rp.dot ov)) / RVOMath.absSq ov))) =
        RVOMath.absSq rp - RVOMath.sqr (rp.dot ov) / RVOMath.absSq ov := by
      simp only [RVOMath.absSq, Vector2.dot, Vector2.negate, Vector2.subtract,
        Vector2.multiply, RVOMath.sqr] at hA ⊢
      field_simp
      ring
    rw [hexp]
    have hnn : 0 ≤ RVOMath.sqr (rp.dot ov) / RVOMath.absSq ov :=
      div_nonneg (mul_self_nonneg _) hA0.le
    linarith

theorem distSqLine_le_absSq2 (rp ov : Vector2 ℝ) :
    RVOMath.absSq ((rp.negate).subtract
      (ov.multiply ((-(rp.dot ov)) / RVOMath.absSq ov))) ≤
      RVOMath.absSq (rp.add ov) := by
  by_cases hA : RVOMath.absSq ov = 0
  · obtain ⟨hx, hy⟩ := (absSq_eq_zero_iff ov).mp hA
    simp only [RVOMath.absSq, Vector2.dot, Vector2.negate, Vector2.subtract,
      Vector2.multiply, Vector2.add, hx, hy]
    nlinarith [mul_self_nonneg rp.x, mul_self_nonneg rp.y]
  · have hA0 : 0 < RVOMath.absSq ov :=
      lt_of_le_of_ne (absSq_nonneg ov) (Ne.symm hA)
    have hexp : RVOMath.absSq (rp.add ov) - RVOMath.absSq ((rp.negate).subtract
        (ov.multiply ((-(rp.dot ov)) / RVOMath.absSq ov))) =
        RVOMath.sqr (RVOMath.absSq ov + rp.dot ov) / RVOMath.absSq ov := by
      simp only [RVOMath.absSq, Vector2.dot, Vector2.negate, Vector2.subtract,
        Vector2.multiply, Vector2.add, RVOMath.sqr] at hA ⊢
      field_simp
      ring
    have hnn : 0 ≤ RVOMath.sqr (RVOMath.absSq ov + rp.dot ov) /
        RVOMath.absSq ov := div_nonneg (mul_self_nonneg _) hA0.le
    linarith

set_option maxHeartbeats 1600000 in
theorem obstacleORCAFinish_dirs (a : Agent ℝ) (invT : ℝ)
    (orcaLines : List (Line ℝ)) (pair : ObstaclePair ℝ)
    (rp1 rp2 l0 r0 : Vector2 ℝ)
    (hacc : ∀ line ∈ orcaLines, RVOMath.absSq line.direction ≤ 1)
    (hd1 : RVOMath.absSq pair.obstacle1.direction ≤ 1)
    (hl0 : RVOMath.absSq l0 ≤ 1) (hr0 : RVOMath.absSq r0 ≤ 1) :
    ∀ line ∈ Agent.obstacleORCAFinish a invT orcaLines pair rp1 rp2 l0 r0,
      RVOMath.absSq line.direction ≤ 1 := by
  intro line hline
  simp only [Agent.obstacleORCAFinish] at hline
  split_ifs at hline <;>
    first
      | exact hacc line hline
      | (rcases List.mem_append.mp hline with hold | hnew
         · exact hacc line hold
         · simp only [List.mem_singleton] at hnew
           subst hnew
           dsimp only
           first
             | (rw [absSq_perpCW]; exact absSq_normalize_le_one _)
             | (rw [absSq_negate]; exact hd1)
             | exact hd1
             | exact hl0
             | (rw [absSq_negate]; exact hr0))

theorem obstacleLegs_strict (rp1 rp2 ov : Vector2 ℝ) (rho : ℝ)
    (hrp2 : rp2 = rp1.add ov)
    (hb1 : ¬(-(rp1.dot ov) / RVOMath.absSq ov < 0 ∧
      RVOMath.absSq rp1 ≤ RVOMath.sqr rho))
    (hb2 : ¬(1 < -(rp1.dot ov) / RVOMath.absSq ov ∧
      RVOMath.absSq rp2 ≤ RVOMath.sqr rho))
    (hb3 : ¬(0 ≤ -(rp1.dot ov) / RVOMath.absSq ov ∧
      -(rp1.dot ov) / RVOMath.absSq ov ≤ 1 ∧
      RVOMath.absSq ((rp1.negate).subtract
        (ov.multiply (-(rp1.dot ov) / RVOMath.absSq ov))) ≤ RVOMath.sqr rho))
    (hb4 : ¬(-(rp1.dot ov) / RVOMath.absSq ov < 0 ∧
      RVOMath.absSq ((rp1.negate).subtract
        (ov.multiply (-(rp1.dot ov) / RVOMath.absSq ov))) ≤ RVOMath.sqr rho))
    (hb5 : ¬(1 < -(rp1.dot ov) / RVOMath.absSq ov ∧
      RVOMath.absSq ((rp1.negate).subtract
        (ov.multiply (-(rp1.dot ov) / RVOMath.absSq ov))) ≤ RVOMath.sqr rho)) :
    RVOMath.sqr rho < RVOMath.absSq rp1 ∧
      RVOMath.sqr rho < RVOMath.absSq rp2 := by
  subst hrp2
  rcases lt_or_le (-(rp1.dot ov) / RVOMath.absSq ov) 0 with hs | hs
  · have h1 : RVOMath.sqr rho < RVOMath.absSq rp1 :=
      not_le.mp (fun hle => hb1 ⟨hs, hle⟩)
    have hL : RVOMath.sqr rho < RVOMath.absSq ((rp1.negate).subtract
        (ov.multiply (-(rp1.dot ov) / RVOMath.absSq ov))) :=
      not_le.mp (fun hle => hb4 ⟨hs, hle⟩)
    exact ⟨h1, lt_of_lt_of_le hL (distSqLine_le_absSq2 rp1 ov)⟩
  · rcases le_or_lt (-(rp1.dot ov) / RVOMath.absSq ov) 1 with hs1 | hs1
    · have hL : RVOMath.sqr rho < RVOMath.absSq ((rp1.negate).subtract
          (ov.multiply (-(rp1.dot ov) / RVOMath.absSq ov))) :=
        not_le.mp (fun hle => hb3 ⟨hs, hs1, hle⟩)
      exact ⟨lt_of_lt_of_le hL (distSqLine_le_absSq1 rp1 ov),
        lt_of_lt_of_le hL (distSqLine_le_absSq2 rp1 ov)⟩
    · have h2 : RVOMath.sqr rho < RVOMath.absSq (rp1.add ov) :=
        not_le.mp (fun hle => hb2 ⟨hs1, hle⟩)
      have hL : RVOMath.sqr rho < RVOMath.absSq ((rp1.negate).subtract
          (ov.multiply (-(rp1.dot ov) / RVOMath.absSq ov))) :=
        not_le.mp (fun hle => hb5 ⟨hs1, hle⟩)
      exact ⟨lt_of_lt_of_le hL (distSqLine_le_absSq1 rp1 ov), h2⟩

theorem obstacleORCAStep_dirs (a : Agent ℝ) (invT : ℝ)
    (orcaLines : List (Line ℝ)) (pair : ObstaclePair ℝ)
    (hacc : ∀ line ∈ orcaLines, RVOMath.absSq line.direction ≤ 1)
    (hd1 : RVOMath.absSq pair.obstacle1.direction ≤ 1) :
    ∀ line ∈ Agent.obstacleORCAStep a invT orcaLines pair,
      RVOMath.absSq line.direction ≤ 1 := by
  intro line hline
  have hrp2eq : pair.obstacle2.point.subtract a.position =
      (pair.obstacle1.point.subtract a.position).add
        (pair.obstacle2.point.subtract pair.obstacle1.point) := by
    simp only [Vector2.subtract, Vector2.add, Vector2.mk.injEq]
    constructor <;> ring
  simp only [Agent.obstacleORCAStep] at hline
  split_ifs at hline with hcov hb1 hc1 hb2 hc2 hb3 hb4 hc1f hb5 hc2f hg1 hg2 hg2x
  · exact hacc line hline
  · rcases List.mem_append.mp hline with hold | hnew
    · exact hacc line hold
    · simp only [List.mem_singleton] at hnew
      subst hnew
      dsimp only
      exact absSq_normalize_le_one _
  · exact hacc line hline
  · rcases List.mem_append.mp hline with hold | hnew
    · exact hacc line hold
    · simp only [List.mem_singleton] at hnew
      subst hnew
      dsimp only
      exact absSq_normalize_le_one _
  · exact hacc line hline
  · rcases List.mem_append.mp hline with hold | hnew
    · exact hacc line hold
    · simp only [List.mem_singleton] at hnew
      subst hnew
      dsimp only
      rw [absSq_negate]
      exact hd1
  · exact hacc line hline
  · have hlt1 : RVOMath.sqr a.radius <
        RVOMath.absSq (pair.obstacle1.point.subtract a.position) :=
      not_le.mp (fun hle => hb1 ⟨hb4.1, hle⟩)
    exact obstacleORCAFinish_dirs a invT orcaLines pair _ _ _ _ hacc hd1
      (absSq_leftLeg _ a.radius hlt1).le (absSq_rightLeg _ a.radius hlt1).le
      line hline
  · exact hacc line hline
  · have hlt2 : RVOMath.sqr a.radius <
        RVOMath.absSq (pair.obstacle2.point.subtract a.position) :=
      not_le.mp (fun hle => hb2 ⟨hb5.1, hle⟩)
    exact obstacleORCAFinish_dirs a invT orcaLines pair _ _ _ _ hacc hd1
      (absSq_leftLeg _ a.radius hlt2).le (absSq_rightLeg _ a.radius hlt2).le
      line hline
  · obtain ⟨hlt1, hlt2⟩ := obstacleLegs_strict _ _ _ a.radius hrp2eq
      hb1 hb2 hb3 hb4 hb5
    exact obstacleORCAFinish_dirs a invT orcaLines pair _ _ _ _ hacc hd1
      (absSq_leftLeg _ a.radius hlt1).le (absSq_rightLeg _ a.radius hlt2).le
      line hline
  · obtain ⟨hlt1, _⟩ := obstacleLegs_strict _ _ _ a.radius hrp2eq
      hb1 hb2 hb3 hb4 hb5
    exact obstacleORCAFinish_dirs a invT orcaLines pair _ _ _ _ hacc hd1
      (absSq_leftLeg _ a.radius hlt1).le hd1 line hline
  · obtain ⟨_, hlt2⟩ := obstacleLegs_strict _ _ _ a.radius hrp2eq
      hb1 hb2 hb3 hb4 hb5
    exact obstacleORCAFinish_dirs a invT orcaLines pair _ _ _ _ hacc hd1
      (by rw [absSq_negate]; exact hd1)
      (absSq_rightLeg _ a.radius hlt2).le line hline
  · exact obstacleORCAFinish_dirs a invT orcaLines pair _ _ _ _ hacc hd1
      (by rw [absSq_negate]; exact hd1) hd1 line hline

set_option maxHeartbeats 800000 in
theorem agentORCAStep_dirs (a : Agent ℝ) (invT ts : ℝ)
    (orcaLines : List (Line ℝ)) (other : AgentRef ℝ)
    (hacc : ∀ line ∈ orcaLines, RVOMath.absSq line.direction ≤ 1) :
    ∀ line ∈ Agent.agentORCAStep a invT ts orcaLines other,
      RVOMath.absSq line.direction ≤ 1 := by
  intro line hline
  simp only [Agent.agentORCAStep] at hline
  split_ifs at hline with h1 h2 h3 <;>
    (rcases List.mem_append.mp hline with hold | hnew
     · exact hacc line hold
     · simp only [List.mem_singleton] at hnew
       subst hnew
       dsimp only
       first
         | (rw [absSq_perpCW]; exact absSq_divide_sqrt_le_one _ _ rfl)
         | exact (absSq_leftLeg _ _ h1).le
         | (rw [absSq_negate]; exact (absSq_rightLeg _ _ h1).le))

theorem obstacleFold_dirs (a : Agent ℝ) (invT : ℝ) :
    ∀ (l : List (ℝ × ObstaclePair ℝ)) (acc : List (Line ℝ)),
      (∀ line ∈ acc, RVOMath.absSq line.direction ≤ 1) →
      (∀ e ∈ l, RVOMath.absSq e.2.obstacle1.direction ≤ 1) →
      ∀ line ∈ l.foldl (fun acc e =>
          Agent.obstacleORCAStep a invT acc e.2) acc,
        RVOMath.absSq line.direction ≤ 1 := by
  intro l
  induction l with
  | nil => intro acc hacc _; exact hacc
  | cons e rest ih =>
      intro acc hacc hl
      rw [List.foldl_cons]
      exact ih _ (obstacleORCAStep_dirs a invT acc e.2 hacc
          (hl e (List.mem_cons_self e rest)))
        (fun e' he' => hl e' (List.mem_cons_of_mem e he'))

theorem agentFold_dirs (a : Agent ℝ) (invT ts : ℝ) :
    ∀ (l : List (ℝ × AgentRef ℝ)) (acc : List (Line ℝ)),
      (∀ line ∈ acc, RVOMath.absSq line.direction ≤ 1) →
      ∀ line ∈ l.foldl (fun acc e =>
          Agent.agentORCAStep a invT ts acc e.2) acc,
        RVOMath.absSq line.direction ≤ 1 := by
  intro l
  induction l with
  | nil => intro acc hacc; exact hacc
  | cons e rest ih =>
      intro acc hacc
      rw [List.foldl_cons]
      exact ih _ (agentORCAStep_dirs a invT ts acc e.2 hacc)

theorem computeNewVelocity_in_disc (ts : ℝ) (a : Agent ℝ)
    (hobst : ∀ e ∈ a.obstacleNeighbors,
      RVOMath.absSq e.2.obstacle1.direction ≤ 1) :
    RVOMath.absSq (Agent.computeNewVelocity ts a).newVelocity ≤
      RVOMath.sqr a.maxSpeed := by
  have hobstDirs : ∀ line ∈ a.obstacleNeighbors.foldl (fun acc e =>
      Agent.obstacleORCAStep a (1 / a.timeHorizonObst) acc e.2) [],
      RVOMath.absSq line.direction ≤ 1 :=
    obstacleFold_dirs a (1 / a.timeHorizonObst) a.obstacleNeighbors []
      (by simp) hobst
  have hallDirs : ∀ line ∈ a.agentNeighbors.foldl (fun acc e =>
      Agent.agentORCAStep a (1 / a.timeHorizon) ts acc e.2)
      (a.obstacleNeighbors.foldl (fun acc e =>
        Agent.obstacleORCAStep a (1 / a.timeHorizonObst) acc e.2) []),
      RVOMath.absSq line.direction ≤ 1 :=
    agentFold_dirs a (1 / a.timeHorizon) ts a.agentNeighbors _ hobstDirs
  have hlp2 := linearProgram2_in_disc
    (a.agentNeighbors.foldl (fun acc e =>
      Agent.agentORCAStep a (1 / a.timeHorizon) ts acc e.2)
      (a.obstacleNeighbors.foldl (fun acc e =>
        Agent.obstacleORCAStep a (1 / a.timeHorizonObst) acc e.2) []))
    a.maxSpeed a.prefVelocity false
    (dirs_getD_le_one _ hallDirs) (fun h => nomatch h)
  simp only [Agent.computeNewVelocity]
  by_cases hfail : (Agent.linearProgram2
      (a.agentNeighbors.foldl (fun acc e =>
        Agent.agentORCAStep a (1 / a.timeHorizon) ts acc e.2)
        (a.obstacleNeighbors.foldl (fun acc e =>
          Agent.obstacleORCAStep a (1 / a.timeHorizonObst) acc e.2) []))
      a.maxSpeed a.prefVelocity false).1 <
      (a.agentNeighbors.foldl (fun acc e =>
        Agent.agentORCAStep a (1 / a.timeHorizon) ts acc e.2)
        (a.obstacleNeighbors.foldl (fun acc e =>
          Agent.obstacleORCAStep a (1 / a.timeHorizonObst) acc e.2) [])).length
  · rw [if_pos hfail]
    exact linearProgram3_in_disc _ _ _ a.maxSpeed _ hallDirs hlp2
  · rw [if_neg hfail]
    exact hlp2

end ORCADirectionBounds

section NeighborFrames

theorem insertAgentNeighbor_frame {α : Type} [LinearOrderedField α]
    (a : Agent α) (o : AgentRef α) (r : α) :
    (a.insertAgentNeighbor o r).1 =
      { a with agentNeighbors := (a.insertAgentNeighbor o r).1.agentNeighbors } := by
  unfold Agent.insertAgentNeighbor
  by_cases h1 : a.id ≠ o.id
  · by_cases h2 : RVOMath.absSq (a.position.subtract o.position) < r
    · simp [h1, h2]
    · simp [h1, h2]
  · simp [h1]

theorem agentLeafFold_frame (simAgents : List (Agent ℝ)) (kd : KdTree)
    (l : List ℕ) : ∀ st : Agent ℝ × ℝ,
    (l.foldl (fun st i => st.1.insertAgentNeighbor
      (simAgents.getD (kd.agents.getD i 0) Agent.init).toRef st.2) st).1 =
      { st.1 with agentNeighbors :=
          (l.foldl (fun st i => st.1.insertAgentNeighbor
            (simAgents.getD (kd.agents.getD i 0) Agent.init).toRef st.2)
            st).1.agentNeighbors } := by
  induction l with
  | nil => intro st; rfl
  | cons i rest ih =>
      intro st
      rw [List.foldl_cons]
      rw [ih, insertAgentNeighbor_frame]

theorem with_agentNeighbors_congr (b c : Agent ℝ)
    (h : b = { c with agentNeighbors := b.agentNeighbors })
    (y : List (ℝ × AgentRef ℝ)) :
    ({ b with agentNeighbors := y } : Agent ℝ) =
      { c with agentNeighbors := y } := by
  rw [h]

theorem queryAgentTree_frame (simAgents : List (Agent ℝ)) (kd : KdTree) :
    ∀ (fuel : ℕ) (a : Agent ℝ) (rangeSq : ℝ) (node : ℕ),
    (KdTree.queryAgentTreeRecursive simAgents kd fuel a rangeSq node).1 =
      { a with agentNeighbors :=
          (KdTree.queryAgentTreeRecursive simAgents kd fuel a rangeSq
            node).1.agentNeighbors } := by
  intro fuel
  induction fuel with
  | zero => intro a rangeSq node; rfl
  | succ fuel ih =>
      intro a rangeSq node
      simp only [KdTree.queryAgentTreeRecursive]
      split_ifs with h1 h2 h3 h4 h5 h6
      · exact agentLeafFold_frame simAgents kd _ (a, rangeSq)
      · exact (ih _ _ _).trans (with_agentNeighbors_congr _ _ (ih _ _ _) _)
      · rw [ih]
      · rfl
      · exact (ih _ _ _).trans (with_agentNeighbors_congr _ _ (ih _ _ _) _)
      · rw [ih]
      · rfl

theorem insertObstacleNeighbor_mem {α : Type} [LinearOrderedField α]
    (a : Agent α) (o : ObstaclePair α) (r : α) (e : α × ObstaclePair α)
    (he : e ∈ (a.insertObstacleNeighbor o r).obstacleNeighbors) :
    e ∈ a.obstacleNeighbors ∨ e.2 = o := by
  rw [insertObstacleNeighbor_eq] at he
  by_cases h : RVOMath.distSqPointLineSegment o.obstacle1.point o.obstacle2.point
      a.position < r
  · rw [if_pos h] at he
    have hperm := shiftInsert_perm
      (RVOMath.distSqPointLineSegment o.obstacle1.point o.obstacle2.point
        a.position) o a.obstacleNeighbors
    have hc : e ∈ (RVOMath.distSqPointLineSegment o.obstacle1.point
        o.obstacle2.point a.position, o) :: a.obstacleNeighbors :=
      hperm.mem_iff.mp he
    rcases List.mem_cons.mp hc with heq | hmem
    · right
      rw [heq]
    · exact Or.inl hmem
  · rw [if_neg h] at he
    exact Or.inl he

theorem queryObstacleTree_mem {α : Type} [LinearOrderedField α] (rangeSq : α) :
    ∀ (t : ObstacleTree α) (a : Agent α) (e : α × ObstaclePair α),
      e ∈ (queryObstacleTreeRecursive a rangeSq t).obstacleNeighbors →
      e ∈ a.obstacleNeighbors ∨ e.2 ∈ ObstacleTree.pairs t := by
  intro t
  induction t with
  | empty => intro a e he; exact Or.inl he
  | node o l rt ihl ihr =>
      intro a e he
      have hsplit : e ∈ a.obstacleNeighbors ∨ e.2 = o ∨
          e.2 ∈ ObstacleTree.pairs l ∨ e.2 ∈ ObstacleTree.pairs rt := by
        by_cases hs : 0 ≤ RVOMath.leftOf o.obstacle1.point o.obstacle2.point
          a.position
        · have hns : ¬ (RVOMath.leftOf o.obstacle1.point o.obstacle2.point
              a.position < 0) := not_lt.mpr hs
          by_cases hd : RVOMath.sqr (RVOMath.leftOf o.obstacle1.point
              o.obstacle2.point a.position) /
              RVOMath.absSq (o.obstacle2.point.subtract o.obstacle1.point) <
              rangeSq
          · have hred : queryObstacleTreeRecursive a rangeSq (.node o l rt) =
                queryObstacleTreeRecursive
                  (queryObstacleTreeRecursive a rangeSq l) rangeSq rt := by
              simp only [queryObstacleTreeRecursive, hs, hd, hns, if_true,
                if_false, ite_true, ite_false]
            rw [hred] at he
            rcases ihr _ e he with hin | hrt
            · rcases ihl _ e hin with hin2 | hl
              · exact Or.inl hin2
              · exact Or.inr (Or.inr (Or.inl hl))
            · exact Or.inr (Or.inr (Or.inr hrt))
          · have hred : queryObstacleTreeRecursive a rangeSq (.node o l rt) =
                queryObstacleTreeRecursive a rangeSq l := by
              simp only [queryObstacleTreeRecursive, hs, hd, if_true, if_false,
                ite_true, ite_false]
            rw [hred] at he
            rcases ihl _ e he with hin | hl
            · exact Or.inl hin
            · exact Or.inr (Or.inr (Or.inl hl))
        · have hlt : RVOMath.leftOf o.obstacle1.point o.obstacle2.point
              a.position < 0 := not_le.mp hs
          by_cases hd : RVOMath.sqr (RVOMath.leftOf o.obstacle1.point
              o.obstacle2.point a.position) /
              RVOMath.absSq (o.obstacle2.point.subtract o.obstacle1.point) <
              rangeSq
          · have hred : queryObstacleTreeRecursive a rangeSq (.node o l rt) =
                queryObstacleTreeRecursive
                  ((queryObstacleTreeRecursive a rangeSq rt).insertObstacleNeighbor
                    o rangeSq) rangeSq l := by
              simp only [queryObstacleTreeRecursive, hs, hd, hlt, if_true,
                if_false, ite_true, ite_false]
            rw [hred] at he
            rcases ihl _ e he with hin | hl
            · rcases insertObstacleNeighbor_mem _ o rangeSq e hin with hin2 | ho
              · rcases ihr _ e hin2 with hin3 | hrt
                · exact Or.inl hin3
                · exact Or.inr (Or.inr (Or.inr hrt))
              · exact Or.inr (Or.inl ho)
            · exact Or.inr (Or.inr (Or.inl hl))
          · have hred : queryObstacleTreeRecursive a rangeSq (.node o l rt) =
                queryObstacleTreeRecursive a rangeSq rt := by
              simp only [queryObstacleTreeRecursive, hs, hd, hlt, if_true,
                if_false, ite_true, ite_false]
            rw [hred] at he
            rcases ihr _ e he with hin | hrt
            · exact Or.inl hin
            · exact Or.inr (Or.inr (Or.inr hrt))
      rcases hsplit with hin | ho | hl | hrt
      · exact Or.inl hin
      · exact Or.inr (by simp [ObstacleTree.pairs, ho])
      · exact Or.inr (by simp [ObstacleTree.pairs, hl])
      · exact Or.inr (by simp [ObstacleTree.pairs, hrt])

theorem computeNeighbors_obstacles (s : Simulator) (a : Agent ℝ)
    (e : ℝ × ObstaclePair ℝ)
    (he : e ∈ (computeNeighbors s a).obstacleNeighbors) :
    e.2 ∈ ObstacleTree.pairs s.kdTree.obstacleTree := by
  simp only [computeNeighbors] at he
  by_cases hmn : 0 < a.maxNeighbors
  · rw [if_pos hmn] at he
    rw [queryAgentTree_frame] at he
    rcases queryObstacleTree_mem _ s.kdTree.obstacleTree
        { a with obstacleNeighbors := [] } e he with hin | hp
    · simp at hin
    · exact hp
  · rw [if_neg hmn] at he
    rcases queryObstacleTree_mem _ s.kdTree.obstacleTree
        { a with obstacleNeighbors := [] } e he with hin | hp
    · simp at hin
    · exact hp

theorem computeNeighbors_maxSpeed (s : Simulator) (a : Agent ℝ) :
    (computeNeighbors s a).maxSpeed = a.maxSpeed := by
  simp only [computeNeighbors]
  by_cases hmn : 0 < a.maxNeighbors
  · rw [if_pos hmn]
    rw [queryAgentTree_frame]
    rw [queryObstacleTree_frame]
  · rw [if_neg hmn]
    rw [queryObstacleTree_frame]

theorem buildAgentTree_obstacleTree (s : Simulator) :
    (KdTree.buildAgentTree s).obstacleTree = s.kdTree.obstacleTree := by
  simp only [KdTree.buildAgentTree]
  split_ifs <;> rfl

end NeighborFrames

/-- C1: after every doStep(), every agent's committed velocity satisfies
|velocity| <= maxSpeed + epsilon, assuming every agent's maxSpeed is
nonnegative (and, as the simulator maintains by normalizing every obstacle
edge direction in addObstacle, the obstacle edges stored in the obstacle
k-D tree carry directions of squared length at most one): linearProgram2
seeds the new velocity inside the disc of radius maxSpeed, every solver
stage keeps it there, and update() copies newVelocity into velocity. -/
theorem doStep_speed_bound (s : Simulator)
    (hms : ∀ b ∈ s.agents, 0 ≤ b.maxSpeed)
    (hdir : ∀ pair ∈ ObstacleTree.pairs s.kdTree.obstacleTree,
      RVOMath.absSq pair.obstacle1.direction ≤ 1) :
    ∀ a ∈ (Simulator.doStep s).2.agents,
      RVOMath.abs a.velocity ≤ a.maxSpeed + RVOMath.RVO_EPSILON := by
  intro a ha
  have hmem : a ∈ (s.agents.map (fun b =>
      Agent.computeNewVelocity s.timeStep
        (computeNeighbors { s with kdTree := KdTree.buildAgentTree s } b))).map
      (Agent.update s.timeStep) := ha
  rcases List.mem_map.mp hmem with ⟨c, hc, rfl⟩
  rcases List.mem_map.mp hc with ⟨b, hb, rfl⟩
  have hobsTree : ({ s with kdTree := KdTree.buildAgentTree s } :
      Simulator).kdTree.obstacleTree = s.kdTree.obstacleTree :=
    buildAgentTree_obstacleTree s
  have hobst : ∀ e ∈ (computeNeighbors
      { s with kdTree := KdTree.buildAgentTree s } b).obstacleNeighbors,
      RVOMath.absSq e.2.obstacle1.direction ≤ 1 := by
    intro e he
    have hp := computeNeighbors_obstacles
      { s with kdTree := KdTree.buildAgentTree s } b e he
    rw [hobsTree] at hp
    exact hdir e.2 hp
  have hcnms : (computeNeighbors { s with kdTree := KdTree.buildAgentTree s }
      b).maxSpeed = b.maxSpeed :=
    computeNeighbors_maxSpeed _ b
  have hbound := computeNewVelocity_in_disc s.timeStep
    (computeNeighbors { s with kdTree := KdTree.buildAgentTree s } b) hobst
  rw [hcnms] at hbound
  have hvel : (Agent.update s.timeStep (Agent.computeNewVelocity s.timeStep
      (computeNeighbors { s with kdTree := KdTree.buildAgentTree s }
        b))).velocity = (Agent.computeNewVelocity s.timeStep
      (computeNeighbors { s with kdTree := KdTree.buildAgentTree s }
        b)).newVelocity := rfl
  have hms2 : (Agent.update s.timeStep (Agent.computeNewVelocity s.timeStep
      (computeNeighbors { s with kdTree := KdTree.buildAgentTree s }
        b))).maxSpeed = b.maxSpeed := hcnms
  rw [hvel, hms2]
  have habs := abs_le_of_absSq_le _ _ hbound (hms b hb)
  have heps : (0:ℝ) ≤ RVOMath.RVO_EPSILON := by
    norm_num [RVOMath.RVO_EPSILON]
  linarith

theorem doStep_speed_bound_witness :
    (∀ b ∈ (⟨[Agent.init], [], KdTree.init, 1/4, none, 0⟩ :
        Simulator).agents, 0 ≤ b.maxSpeed) ∧
    (∀ pair ∈ ObstacleTree.pairs ((⟨[Agent.init], [], KdTree.init, 1/4, none,
        0⟩ : Simulator)).kdTree.obstacleTree,
      RVOMath.absSq pair.obstacle1.direction ≤ 1) ∧
    ∀ a ∈ (Simulator.doStep
        ⟨[Agent.init], [], KdTree.init, 1/4, none, 0⟩).2.agents,
      RVOMath.abs a.velocity ≤ a.maxSpeed + RVOMath.RVO_EPSILON := by
  have h1 : ∀ b ∈ (⟨[Agent.init], [], KdTree.init, 1/4, none, 0⟩ :
      Simulator).agents, 0 ≤ b.maxSpeed := by
    intro b hb
    rw [List.mem_singleton] at hb
    subst hb
    exact le_refl 0
  have h2 : ∀ pair ∈ ObstacleTree.pairs ((⟨[Agent.init], [], KdTree.init, 1/4,
      none, 0⟩ : Simulator)).kdTree.obstacleTree,
      RVOMath.absSq pair.obstacle1.direction ≤ 1 := by
    intro pair hp
    simp [KdTree.init, ObstacleTree.pairs] at hp
  exact ⟨h1, h2, doStep_speed_bound _ h1 h2⟩

/-- C2 (amended): during obstacle ORCA-line construction, an
obstacle-neighbor edge is skipped — the ORCA-line list is returned
unchanged — when SOME previously-added ORCA line L satisfies
det(p1*invTimeHorizonObst - L.point, L.direction) >= radius*invTimeHorizonObst
- epsilon and the same condition with p2. -/
theorem obstacleORCA_skip_when_covered (a : Agent ℝ) (invT : ℝ)
    (orcaLines : List (Line ℝ)) (pair : ObstaclePair ℝ)
    (hcov : ∃ line ∈ orcaLines,
      -RVOMath.RVO_EPSILON ≤ RVOMath.det
        (((pair.obstacle1.point.subtract a.position).multiply invT).subtract
          line.point) line.direction - invT * a.radius ∧
      -RVOMath.RVO_EPSILON ≤ RVOMath.det
        (((pair.obstacle2.point.subtract a.position).multiply invT).subtract
          line.point) line.direction - invT * a.radius) :
    Agent.obstacleORCAStep a invT orcaLines pair = orcaLines := by
  obtain ⟨line, hmem, h1, h2⟩ := hcov
  have hany : (orcaLines.any (fun line =>
      decide (-RVOMath.RVO_EPSILON ≤
        RVOMath.det (((pair.obstacle1.point.subtract a.position).multiply
          invT).subtract line.point) line.direction - invT * a.radius) &&
      decide (-RVOMath.RVO_EPSILON ≤
        RVOMath.det (((pair.obstacle2.point.subtract a.position).multiply
          invT).subtract line.point) line.direction - invT * a.radius))) =
      true := by
    rw [List.any_eq_true]
    refine ⟨line, hmem, ?_⟩
    rw [Bool.and_eq_true, decide_eq_true_eq, decide_eq_true_eq]
    exact ⟨h1, h2⟩
  simp only [Agent.obstacleORCAStep, hany, if_true, ite_true, eq_self_iff_true]

/-- C2, counterexample to the original universal phrasing: with NO
previously-added ORCA lines every previously-added line vacuously satisfies
the coverage conditions, yet the edge from (1,-1) to (1,1) seen by an agent
at the origin with radius 1 is not skipped: the collision-with-interior
branch emits one ORCA line. -/
theorem obstacleORCA_vacuous_covered_counterexample :
    (∀ line ∈ ([] : List (Line ℝ)),
      -RVOMath.RVO_EPSILON ≤ RVOMath.det
        ((((⟨⟨1, -1⟩, ⟨0, 1⟩, true, 0⟩ : ObstacleSnapshot ℝ).point.subtract
          (⟨0, 0⟩ : Vector2 ℝ)).multiply 1).subtract
          line.point) line.direction - 1 * 1 ∧
      -RVOMath.RVO_EPSILON ≤ RVOMath.det
        ((((⟨⟨1, 1⟩, ⟨0, 1⟩, true, 1⟩ : ObstacleSnapshot ℝ).point.subtract
          (⟨0, 0⟩ : Vector2 ℝ)).multiply 1).subtract
          line.point) line.direction - 1 * 1) ∧
    Agent.obstacleORCAStep
      (⟨[], [], [], ⟨0, 0⟩, ⟨0, 0⟩, ⟨0, 0⟩, 0, 0, 0, 0, 1, 0, 0, ⟨0, 0⟩⟩ :
        Agent ℝ) 1 []
      ⟨⟨⟨1, -1⟩, ⟨0, 1⟩, true, 0⟩, ⟨⟨1, 1⟩, ⟨0, 1⟩, true, 1⟩, ⟨0, 1⟩⟩ =
      [⟨⟨0, -1⟩, ⟨0, 0⟩⟩] ∧
    ([(⟨⟨0, -1⟩, ⟨0, 0⟩⟩ : Line ℝ)] ≠ ([] : List (Line ℝ))) := by
  refine ⟨?_, ?_, ?_⟩
  · intro line hline
    simp at hline
  · norm_num [Agent.obstacleORCAStep, RVOMath.det, RVOMath.absSq,
      RVOMath.sqr, RVOMath.RVO_EPSILON, Vector2.dot, Vector2.subtract,
      Vector2.multiply, Vector2.negate, List.any_nil]
  · simp

theorem obstacleORCA_skip_when_covered_witness :
    (∃ line ∈ [(⟨⟨1, 0⟩, ⟨0, -100⟩⟩ : Line ℝ)],
      -RVOMath.RVO_EPSILON ≤ RVOMath.det
        ((((⟨⟨⟨1, -200⟩, ⟨0, -1⟩, true, 0⟩, ⟨⟨1, -201⟩, ⟨0, -1⟩, true, 1⟩,
          ⟨0, -1⟩⟩ : ObstaclePair ℝ).obstacle1.point.subtract
          (Agent.init : Agent ℝ).position).multiply 1).subtract
          line.point) line.direction - 1 * (Agent.init : Agent ℝ).radius ∧
      -RVOMath.RVO_EPSILON ≤ RVOMath.det
        ((((⟨⟨⟨1, -200⟩, ⟨0, -1⟩, true, 0⟩, ⟨⟨1, -201⟩, ⟨0, -1⟩, true, 1⟩,
          ⟨0, -1⟩⟩ : ObstaclePair ℝ).obstacle2.point.subtract
          (Agent.init : Agent ℝ).position).multiply 1).subtract
          line.point) line.direction - 1 * (Agent.init : Agent ℝ).radius) ∧
    Agent.obstacleORCAStep Agent.init 1 [(⟨⟨1, 0⟩, ⟨0, -100⟩⟩ : Line ℝ)]
      ⟨⟨⟨1, -200⟩, ⟨0, -1⟩, true, 0⟩, ⟨⟨1, -201⟩, ⟨0, -1⟩, true, 1⟩,
        ⟨0, -1⟩⟩ = [(⟨⟨1, 0⟩, ⟨0, -100⟩⟩ : Line ℝ)] := by
  have hcov : ∃ line ∈ [(⟨⟨1, 0⟩, ⟨0, -100⟩⟩ : Line ℝ)],
      -RVOMath.RVO_EPSILON ≤ RVOMath.det
        ((((⟨⟨⟨1, -200⟩, ⟨0, -1⟩, true, 0⟩, ⟨⟨1, -201⟩, ⟨0, -1⟩, true, 1⟩,
          ⟨0, -1⟩⟩ : ObstaclePair ℝ).obstacle1.point.subtract
          (Agent.init : Agent ℝ).position).multiply 1).subtract
          line.point) line.direction - 1 * (Agent.init : Agent ℝ).radius ∧
      -RVOMath.RVO_EPSILON ≤ RVOMath.det
        ((((⟨⟨⟨1, -200⟩, ⟨0, -1⟩, true, 0⟩, ⟨⟨1, -201⟩, ⟨0, -1⟩, true, 1⟩,
          ⟨0, -1⟩⟩ : ObstaclePair ℝ).obstacle2.point.subtract
          (Agent.init : Agent ℝ).position).multiply 1).subtract
          line.point) line.direction - 1 * (Agent.init : Agent ℝ).radius := by
    refine ⟨⟨⟨1, 0⟩, ⟨0, -100⟩⟩, List.mem_singleton_self _, ?_, ?_⟩ <;>
      norm_num [RVOMath.det, RVOMath.RVO_EPSILON, Vector2.subtract,
        Vector2.multiply, Agent.init]
  exact ⟨hcov, obstacleORCA_skip_when_covered Agent.init 1 _ _ hcov⟩

end RVO

